import Mathlib

/-!
# tm-configurator: `core/runner.go`

A shallow embedding of the runner of `cdm/tm-configurator` and the properties of its
specification.

* Go strings are `String`; the string algorithms work on the character list `String.data`.
* Go `int` is `Int`, an `error` is its message, a nil `error` is `none`.
* The outside world (the file system as seen by viper, `os.RemoveAll`, the subprocess) is an
  `Env` of answers; every call to it and every log entry is recorded as an `Event`, so that a
  run is a pure function from the environment to the final `App` and the list of its events.
* `viper` and `cast` are libraries outside the repository. A viper instance is modelled by its
  three key/value layers (`Set` overrides, the loaded file, `SetDefault` defaults) over flattened
  keys; the conversions of `cast` are a parameter `Cast`, of which only the conversion of a value
  that already has the requested type is fixed.
-/

namespace TmConfigurator

/-! ## Go library functions -/

/-- The first occurrence of `old` in `s` replaced by `new`; `s` when there is none. An empty
`old` matches at the start of `s`. -/
def replaceFirst : List Char → List Char → List Char → List Char
  | [], old, new => if old = [] then new else []
  | c :: s, old, new =>
      if old.isPrefixOf (c :: s) then new ++ (c :: s).drop old.length
      else c :: replaceFirst s old new

/-- Whether `sub` occurs in `s` as a contiguous block. -/
def containsSub : List Char → List Char → Bool
  | [], sub => sub.isEmpty
  | c :: s, sub => sub.isPrefixOf (c :: s) || containsSub s sub

/-- Go: `strings.Replace(s, old, new, 1)`. -/
def strings.Replace1 (s old new : String) : String :=
  if old = new then s else ⟨replaceFirst s.data old.data new.data⟩

/-- Go: `strings.Contains(s, substr)`. -/
def strings.Contains (s substr : String) : Bool :=
  containsSub s.data substr.data

/-- The verb `%d` of `fmt` for an `int`: the decimal rendering. -/
def itoa : Int → String
  | Int.ofNat n => Nat.repr n
  | Int.negSucc n => "-" ++ Nat.repr (n + 1)

/-- Go: `strconv.FormatBool`. -/
def strconv.FormatBool (b : Bool) : String :=
  if b then "true" else "false"

/-- The verb `%v` of `fmt` for a `[]string`: the elements separated by blanks, in brackets. -/
def fmtStrings (l : List String) : String :=
  "[" ++ " ".intercalate l ++ "]"

/-! ## viper -/

/-- The magnitude `2^53` up to which every integer is a `float64`: an integer of a JSON file
reaches viper unchanged when it is not larger. -/
def maxExactInt : Int := 9007199254740992

/-- The least Go `int`, `-2^63`, of a platform with 64-bit `int`. -/
def minInt : Int := -9223372036854775808

/-- The largest Go `int`, `2^63 - 1`, of a platform with 64-bit `int`. -/
def maxInt : Int := 9223372036854775807

/-- A value held by viper: what a JSON or TOML file gives for a key, or what the program passes
to `Set` and `SetDefault`. The value `int n` is a Go `int` of the program or the integer `n`
a file writes for a key; a JSON file hands its numbers to viper as `float64`, so that what
viper holds for `n` is `n` itself only up to `maxExactInt`. Numbers with a fraction, JSON
`null` and arrays of anything but strings are outside the model. -/
inductive Value where
  | bool (b : Bool)
  | int (n : Int)
  | str (s : String)
  | strs (l : List String)
  deriving DecidableEq, Repr

/-- A layer of a viper instance: flattened, lower-cased keys (`p2p.laddr`) with their values. -/
abbrev Settings := List (String × Value)

/-- The map `m` with `k` bound to `v`. -/
def Settings.insert (m : Settings) (k : String) (v : Value) : Settings :=
  (k, v) :: m.filter (fun p => p.1 != k)

/-- The conversions of `github.com/spf13/cast` behind viper's typed getters. What they make of
a value of another type depends on the library; a boolean, a string and a list of strings
are returned as they are when they are asked for. `ToInt` returns a Go `int`, of 64 bits; it
returns an integer as it is when its magnitude is at most `maxExactInt`, and what it makes of
a larger one (a JSON number is rounded to a `float64` before it is converted) is left to the
library. -/
structure Cast where
  ToBool : Value → Bool
  ToInt : Value → Int
  ToString : Value → String
  ToStringSlice : Value → List String
  ToBool_bool : ∀ b, ToBool (Value.bool b) = b
  ToInt_int : ∀ n, -maxExactInt ≤ n → n ≤ maxExactInt → ToInt (Value.int n) = n
  ToInt_range : ∀ v, minInt ≤ ToInt v ∧ ToInt v ≤ maxInt
  ToString_str : ∀ s, ToString (Value.str s) = s
  ToStringSlice_strs : ∀ l, ToStringSlice (Value.strs l) = l

/-- A `*viper.Viper`. -/
structure Viper where
  configName : String
  configPaths : List String
  defaults : Settings
  config : Settings
  override : Settings
  deriving DecidableEq, Repr

/-- Go: `viper.New()`. -/
def viper.New : Viper :=
  { configName := "config", configPaths := [], defaults := [], config := [], override := [] }

namespace Viper

/-- Go: `v.SetDefault(key, value)`. -/
def SetDefault (v : Viper) (key : String) (value : Value) : Viper :=
  { v with defaults := v.defaults.insert key value }

/-- Go: `v.Set(key, value)`. -/
def Set (v : Viper) (key : String) (value : Value) : Viper :=
  { v with override := v.override.insert key value }

/-- Go: `v.SetConfigName(in)`. -/
def SetConfigName (v : Viper) (name : String) : Viper :=
  if name = "" then v else { v with configName := name }

/-- Go: `v.AddConfigPath(in)`. The path is kept as it is given; viper makes it absolute. -/
def AddConfigPath (v : Viper) (path : String) : Viper :=
  if path = "" ∨ path ∈ v.configPaths then v
  else { v with configPaths := v.configPaths ++ [path] }

/-- Go: `v.Get(key)`, `none` for nil: an override first, then the loaded file, then a default. -/
def Get (v : Viper) (key : String) : Option Value :=
  match v.override.lookup key with
  | some x => some x
  | none =>
    match v.config.lookup key with
    | some x => some x
    | none => v.defaults.lookup key

/-- Go: `v.GetBool(key)`. -/
def GetBool (c : Cast) (v : Viper) (key : String) : Bool :=
  match v.Get key with
  | some x => c.ToBool x
  | none => false

/-- Go: `v.GetInt(key)`. -/
def GetInt (c : Cast) (v : Viper) (key : String) : Int :=
  match v.Get key with
  | some x => c.ToInt x
  | none => 0

/-- Go: `v.GetString(key)`. -/
def GetString (c : Cast) (v : Viper) (key : String) : String :=
  match v.Get key with
  | some x => c.ToString x
  | none => ""

/-- Go: `v.GetStringSlice(key)`. -/
def GetStringSlice (c : Cast) (v : Viper) (key : String) : List String :=
  match v.Get key with
  | some x => c.ToStringSlice x
  | none => []

/-- Go: `v.AllKeys()`; the order of the keys is the model's, Go leaves it open. -/
def AllKeys (v : Viper) : List String :=
  ((v.override ++ v.config ++ v.defaults).map Prod.fst).dedup

/-- Go: `v.AllSettings()`, flattened: every key with the value `Get` gives for it. -/
def AllSettings (v : Viper) : Settings :=
  v.AllKeys.filterMap (fun k => (v.Get k).map (fun x => (k, x)))

end Viper

/-! ## The outside world -/

/-- Severity of a log entry. `init` of `main.go` calls `log.SetLevel(log.InfoLevel)`: entries
of the levels `info` and `error` are printed, those of the level `debug` are recorded here and
not printed. (The comment above that call speaks of the warning severity; the call sets the
level `info`.) -/
inductive Level where
  | debug
  | info
  | error
  deriving DecidableEq, Repr

/-- What a run does to the outside world, in the order it does it. -/
inductive Event where
  | log (level : Level) (msg : String)
  | readInConfig (name : String) (paths : List String)
  | removeAll (path : String)
  | command (name : String) (args : List String)
  | writeConfig (name : String) (paths : List String) (settings : Settings)
  deriving DecidableEq, Repr

/-- The answers of the outside world.

* `readInConfig name paths`: what viper's `ReadInConfig` finds for the config name in the
  search paths, an error or the settings of the file;
* `removeAll path`: the error of `os.RemoveAll`;
* `combinedOutput name args`: the output (`none` for a nil slice) and the error of
  `exec.Command(name, args...).CombinedOutput()`. -/
structure Env where
  readInConfig : String → List String → Except String Settings
  removeAll : String → Option String
  combinedOutput : String → List String → Option String × Option String

/-- The instance `v` once `file` is loaded into its file layer. -/
def Viper.loaded (v : Viper) (file : Settings) : Viper :=
  { v with config := file }

/-- Go: `v.ReadInConfig()`: the error if any, the instance, and the event. -/
def Viper.ReadInConfig (env : Env) (v : Viper) : Option String × Viper × List Event :=
  match env.readInConfig v.configName v.configPaths with
  | Except.error e => (some e, v, [Event.readInConfig v.configName v.configPaths])
  | Except.ok file => (none, v.loaded file, [Event.readInConfig v.configName v.configPaths])

/-- Go: `v.WriteConfig()`: the current settings go to the config file of the instance. -/
def Viper.WriteConfig (v : Viper) : List Event :=
  [Event.writeConfig v.configName v.configPaths v.AllSettings]

/-! ## The runner -/

def genDirName : String := "./basenet"
def versionKey : String := "tm-version"
def pexKey : String := "pex"
def nodesKey : String := "nodes"
def mempoolSizeKey : String := "mempool-size"
def txCacheKeyKey : String := "tx-cache-size"
def p2pPortKey : String := "p2p-port"
def rpcPortKey : String := "rpc-port"
def proxyPortKey : String := "proxy-port"
def loggingPortKey : String := "logging-port"

/-- Go: `type App struct`. The pointer `config` is nil until `Run` sets it; it is modelled by
the instance it points to. -/
structure App where
  tmVersion : String
  pexEnabled : Bool
  nodes : List String
  p2pPort : Int
  rpcPort : Int
  proxyPort : Int
  loggingPort : Int
  txCacheSize : Int
  memPoolSize : Int
  config : Viper
  nodeConfigs : List Viper
  deriving DecidableEq, Repr

/-- Go: `New()`: the zero `App`. -/
def New : App :=
  { tmVersion := "", pexEnabled := false, nodes := [], p2pPort := 0, rpcPort := 0,
    proxyPort := 0, loggingPort := 0, txCacheSize := 0, memPoolSize := 0,
    config := viper.New, nodeConfigs := [] }

namespace App

/-- Go: `app.setDefaults()`. -/
def setDefaults (app : App) : App :=
  let v := app.config
  let v := v.SetDefault versionKey (Value.str "0.26.0")
  let v := v.SetDefault pexKey (Value.bool false)
  let v := v.SetDefault nodesKey (Value.strs ["192.168.0.1", "192.168.0.2", "192.168.0.3"])
  let v := v.SetDefault p2pPortKey (Value.int 26656)
  let v := v.SetDefault rpcPortKey (Value.int 26657)
  let v := v.SetDefault proxyPortKey (Value.int 26658)
  let v := v.SetDefault loggingPortKey (Value.int 26660)
  let v := v.SetDefault mempoolSizeKey (Value.int 5000)
  let v := v.SetDefault txCacheKeyKey (Value.int 10000)
  { app with config := v }

/-- Go: `app.updateConfig()`. -/
def updateConfig (c : Cast) (app : App) : App :=
  { app with
    pexEnabled := app.config.GetBool c pexKey
    nodes := app.config.GetStringSlice c nodesKey
    tmVersion := app.config.GetString c versionKey
    p2pPort := app.config.GetInt c p2pPortKey
    rpcPort := app.config.GetInt c rpcPortKey
    proxyPort := app.config.GetInt c proxyPortKey
    loggingPort := app.config.GetInt c loggingPortKey
    txCacheSize := app.config.GetInt c txCacheKeyKey
    memPoolSize := app.config.GetInt c mempoolSizeKey }

/-- Go: `app.readCustomConfig()`. -/
def readCustomConfig (env : Env) (app : App) : Option String × App × List Event :=
  let v := (app.config.SetConfigName "net").AddConfigPath "."
  match v.ReadInConfig env with
  | (some err, v, t) =>
    (some ("cannot load 'net.json' file: " ++ err ++ " \n"), { app with config := v },
      Event.log Level.info "reading 'net.json' config files" :: t)
  | (none, v, t) =>
    (none, { app with config := v }, Event.log Level.info "reading 'net.json' config files" :: t)

/-- Go: `app.reportCustomConfig()`. -/
def reportCustomConfig (app : App) : List Event :=
  [ Event.log Level.info (">> tendermint-version: " ++ app.tmVersion),
    Event.log Level.info (">> nodes: " ++ fmtStrings app.nodes),
    Event.log Level.info (">> nodes-total: " ++ itoa app.nodes.length),
    Event.log Level.info (">> pexEnabled: " ++ strconv.FormatBool app.pexEnabled),
    Event.log Level.info (">> p2p-port: " ++ itoa app.p2pPort),
    Event.log Level.info (">> rpc-port: " ++ itoa app.rpcPort),
    Event.log Level.info (">> proxy-port: " ++ itoa app.proxyPort),
    Event.log Level.info (">> logging-port: " ++ itoa app.loggingPort),
    Event.log Level.info (">> tx-cache-size: " ++ itoa app.txCacheSize),
    Event.log Level.info (">> mempool-size: " ++ itoa app.memPoolSize) ]

/-- Go: `app.removeExisting()`. -/
def removeExisting (env : Env) (_app : App) : Option String × List Event :=
  (env.removeAll genDirName,
    [Event.log Level.info "removing existing tendermint config files", Event.removeAll genDirName])

/-- The executable `generateTestnet` runs. -/
def tmPath (app : App) : String :=
  "./tendermint/" ++ app.tmVersion ++ "/tendermint"

/-- The arguments `generateTestnet` passes to the executable. -/
def tmArgs (app : App) : List String :=
  ["testnet", "--o", genDirName, "--v", itoa app.nodes.length, "--populate-persistent-peers",
    "--starting-ip-address", "192.168.0.1"]

/-- Go: `app.generateTestnet()`. `log.Debugf(tmPath)` is recorded with its format string. -/
def generateTestnet (env : Env) (app : App) : Option String × List Event :=
  let t := [Event.log Level.info "generating tendermint config files",
    Event.log Level.debug (tmPath app), Event.command (tmPath app) (tmArgs app)]
  match env.combinedOutput (tmPath app) (tmArgs app) with
  | (_, some err) => (some err, t)
  | (none, none) => (some "tendermint testnet output is nil", t ++ [Event.log Level.debug ""])
  | (some output, none) =>
    if !strings.Contains output "Successfully" then
      (some ("tendermint testnet did not return success: " ++ output),
        t ++ [Event.log Level.debug output])
    else (none, t ++ [Event.log Level.debug output])

/-- The pattern the `j`-th round of the substitution loop looks for. -/
def peerPattern (j : Nat) : String :=
  "192.168.0." ++ itoa (Int.ofNat (j + 1)) ++ ":26656"

/-- What the substitution loop puts in place of a pattern. -/
def peerAddress (node : String) (p2pPort : Int) : String :=
  node ++ ":" ++ itoa p2pPort

/-- The rounds `j, j+1, ..` of the substitution loop of `readTestnetConfigs`, over the nodes
`nodes[j], nodes[j+1], ..`. -/
def substituteFrom (p2pPort : Int) : Nat → List String → String → String
  | _, [], peers => peers
  | j, node :: rest, peers =>
    substituteFrom p2pPort (j + 1) rest
      (strings.Replace1 peers (peerPattern j) (peerAddress node p2pPort))

/-- The substitution loop of `readTestnetConfigs`:
`for j := 0; j < len(app.nodes); j++ { peers = strings.Replace(peers, .., .., 1) }`. -/
def substitutePeers (peers : String) (nodes : List String) (p2pPort : Int) : String :=
  substituteFrom p2pPort 0 nodes peers

/-- The search path of the config of node `i`. -/
def nodeConfigPath (i : Nat) : String :=
  "./basenet/node" ++ itoa (Int.ofNat i) ++ "/config/"

/-- The variable `peers` of a round of `readTestnetConfigs` after the substitution loop, for
the loaded config `v`. -/
def substitutedPeers (c : Cast) (app : App) (v : Viper) : String :=
  substitutePeers (v.GetString c "p2p.persistent_peers") app.nodes app.p2pPort

/-- The `Set` calls of round `i` of `readTestnetConfigs` on the loaded config `v`. -/
def patchNodeConfig (c : Cast) (app : App) (i : Nat) (v : Viper) : Viper :=
  let peers := substitutedPeers c app v
  let v := v.Set "moniker" (Value.str ("node" ++ itoa (Int.ofNat i)))
  let v := v.Set "proxy_app" (Value.str ("tcp://127.0.0.1:" ++ itoa app.proxyPort))
  let v := v.Set "p2p.laddr" (Value.str ("tcp://0.0.0.0:" ++ itoa app.p2pPort))
  let v := v.Set "p2p.persistent_peers" (Value.str peers)
  let v := v.Set "p2p.cache_size" (Value.int app.txCacheSize)
  let v := v.Set "p2p.size" (Value.int app.memPoolSize)
  let v := v.Set "p2p.pex" (Value.str (strconv.FormatBool app.pexEnabled))
  let v := v.Set "instrumentation.prometheus_listen_addr" (Value.str (":" ++ itoa app.loggingPort))
  v.Set "rpc.laddr" (Value.str ("tcp://0.0.0.0:" ++ itoa app.rpcPort))

/-- The instance `app.nodeConfigs[i]` of round `i` of `readTestnetConfigs`, after the `append`
of a new instance, `SetConfigName` and `AddConfigPath`. -/
def nodeViper (app : App) (i : Nat) : Viper :=
  (((app.nodeConfigs ++ [viper.New]).getD i viper.New).SetConfigName "config").AddConfigPath
    (nodeConfigPath i)

/-- Round `i` of the loop of `readTestnetConfigs`: the error that ends the loop if any, the
`App`, and the events of the round. -/
def readTestnetConfigsRound (c : Cast) (env : Env) (app : App) (i : Nat) :
    Option String × App × List Event :=
  let ncs := app.nodeConfigs ++ [viper.New]
  let t := [Event.log Level.info ("reading node" ++ itoa (Int.ofNat i) ++ " 'config.toml' file")]
  match (nodeViper app i).ReadInConfig env with
  | (some err, v, t1) =>
    (some ("cannot load node" ++ itoa (Int.ofNat i) ++ " 'config.toml' file: " ++ err ++ " \n"),
      { app with nodeConfigs := ncs.set i v }, t ++ t1)
  | (none, v, t1) =>
    let t2 := [Event.log Level.info (fmtStrings v.AllKeys),
      Event.log Level.info (substitutedPeers c app v)]
    let v := patchNodeConfig c app i v
    let t3 := v.WriteConfig ++
      [Event.log Level.info ("updated tendermint generated config for node" ++
        itoa (Int.ofNat i) ++ " with custom properties")]
    (none, { app with nodeConfigs := ncs.set i v }, t ++ t1 ++ t2 ++ t3)

/-- The rounds `i, i+1, ..` of the loop of `readTestnetConfigs`; `k` rounds are left, so that
`i + k = len(app.nodes)`. -/
def readTestnetConfigsFrom (c : Cast) (env : Env) : Nat → Nat → App → Option String × App × List Event
  | 0, _, app => (none, app, [])
  | k + 1, i, app =>
    match readTestnetConfigsRound c env app i with
    | (some err, app, t) => (some err, app, t)
    | (none, app, t) =>
      match readTestnetConfigsFrom c env k (i + 1) app with
      | (r, app, t1) => (r, app, t ++ t1)

/-- Go: `app.readTestnetConfigs()`. -/
def readTestnetConfigs (c : Cast) (env : Env) (app : App) : Option String × App × List Event :=
  match readTestnetConfigsFrom c env app.nodes.length 0 app with
  | (r, app, t) => (r, app, Event.log Level.info "read tendermint generated config files" :: t)

/-- Go: `app.Run()`: the final `App` and the events of the run. The result of
`app.generateTestnet()` is not assigned: the test after it reads `err`, which still holds the
result of `removeExisting`. -/
def Run (c : Cast) (env : Env) (app : App) : App × List Event :=
  let app := { app with config := viper.New }
  let app := app.setDefaults
  let app := app.updateConfig c
  match app.readCustomConfig env with
  | (some e, app, t1) => (app, t1 ++ [Event.log Level.error e])
  | (none, app, t1) =>
    let app := app.updateConfig c
    let t2 := app.reportCustomConfig
    match app.removeExisting env with
    | (err, t3) =>
      match err with
      | some e => (app, t1 ++ t2 ++ t3 ++ [Event.log Level.error e])
      | none =>
        match app.generateTestnet env with
        | (_, t4) =>
          match err with
          | some e => (app, t1 ++ t2 ++ t3 ++ t4 ++ [Event.log Level.error e])
          | none =>
            match app.readTestnetConfigs c env with
            | (some e, app, t5) => (app, t1 ++ t2 ++ t3 ++ t4 ++ t5 ++ [Event.log Level.error e])
            | (none, app, t5) => (app, t1 ++ t2 ++ t3 ++ t4 ++ t5 ++ [Event.log Level.info "done."])

end App

/-! ## Definitions for the statements: examples of the outside world, and the terms
the theorems are stated in -/

/-- A conversion library for the examples: a value of the requested type as it is (an integer
when its magnitude is at most `maxExactInt`), and the zero value of the requested type for
any other value, which is what `cast` gives for a value it cannot convert. -/
def zeroCast : Cast where
  ToBool := fun x => match x with
    | Value.bool b => b
    | _ => false
  ToInt := fun x => match x with
    | Value.int n => if -maxExactInt ≤ n ∧ n ≤ maxExactInt then n else 0
    | _ => 0
  ToString := fun x => match x with
    | Value.str s => s
    | _ => ""
  ToStringSlice := fun x => match x with
    | Value.strs l => l
    | _ => []
  ToBool_bool := fun _ => rfl
  ToInt_int := fun n h1 h2 => by simp only [h1, h2, and_self, if_true]
  ToInt_range := fun v => by
    cases v with
    | int n =>
      by_cases h : -maxExactInt ≤ n ∧ n ≤ maxExactInt
      · simp only [h, and_self, if_true]
        unfold maxExactInt at h
        unfold minInt maxInt
        omega
      · simp only [h, if_false]
        exact (by decide : minInt ≤ (0 : Int) ∧ (0 : Int) ≤ maxInt)
    | bool b => exact (by decide : minInt ≤ (0 : Int) ∧ (0 : Int) ≤ maxInt)
    | str s => exact (by decide : minInt ≤ (0 : Int) ∧ (0 : Int) ≤ maxInt)
    | strs l => exact (by decide : minInt ≤ (0 : Int) ∧ (0 : Int) ≤ maxInt)
  ToString_str := fun _ => rfl
  ToStringSlice_strs := fun _ => rfl

/-- A world in which the settings file names one node, the generator exits with an error,
and the config of node 0 is on disk all the same. -/
def failingGeneratorEnv : Env where
  readInConfig := fun name paths =>
    if name = "net" then Except.ok [("nodes", Value.strs ["10.0.0.1"])]
    else if paths = ["./basenet/node0/config/"] then
      Except.ok [("p2p.persistent_peers", Value.str "a@192.168.0.1:26656")]
    else Except.error "Not Found"
  removeAll := fun _ => none
  combinedOutput := fun _ _ => (some "ERROR: unknown flag", some "exit status 1")

/-- A world without a settings file. -/
def noSettingsEnv : Env where
  readInConfig := fun _ _ => Except.error "Config File \"net\" Not Found in \"[.]\""
  removeAll := fun _ => none
  combinedOutput := fun _ _ => (some "Successfully initialized 3 node directories", none)

/-- The nine settings of an `App`. -/
def App.settings (a : App) : String × Bool × List String × Int × Int × Int × Int × Int × Int :=
  (a.tmVersion, a.pexEnabled, a.nodes, a.p2pPort, a.rpcPort, a.proxyPort, a.loggingPort,
    a.txCacheSize, a.memPoolSize)

/-- The keys of the settings file the runner reads. -/
def settingKeys : List String :=
  [versionKey, pexKey, nodesKey, p2pPortKey, rpcPortKey, proxyPortKey, loggingPortKey,
    txCacheKeyKey, mempoolSizeKey]

/-- In the words of the specification: the setting `x` equals the value the file has for
`key`, and the default when the file has no such key (`inj` makes a viper value of a
setting). -/
def EqualsFile {α : Type} (file : Settings) (key : String) (inj : α → Value) (dflt x : α) : Prop :=
  match file.lookup key with
  | some v => inj x = v
  | none => x = dflt

/-- The setting `x` is the default when the file has no `key`, the value of the file when that
is a value of the type of the setting, and in any case what the conversion `conv` of the typed
getter makes of the value of the file. -/
def FollowsFile {α : Type} (file : Settings) (key : String) (inj : α → Value) (conv : Value → α)
    (dflt x : α) : Prop :=
  (file.lookup key = none → x = dflt) ∧
  (∀ y, file.lookup key = some (inj y) → x = y) ∧
  (∀ v, file.lookup key = some v → x = conv v)

/-- The integer setting `x` is the default when the file has no `key`, the integer the file has
for `key` when its magnitude is at most `maxExactInt`, in any case what the conversion `conv`
of `GetInt` makes of the value of the file, and always a Go `int`. -/
def FollowsFileInt (file : Settings) (key : String) (conv : Value → Int) (dflt x : Int) : Prop :=
  (file.lookup key = none → x = dflt) ∧
  (∀ n, -maxExactInt ≤ n → n ≤ maxExactInt → file.lookup key = some (Value.int n) → x = n) ∧
  (∀ v, file.lookup key = some v → x = conv v) ∧
  (minInt ≤ x ∧ x ≤ maxInt)

/-- The instance `app.config` of `Run` once the settings file `file` is loaded. -/
def settingsViper (file : Settings) : Viper :=
  { configName := "net", configPaths := ["."],
    defaults := [(txCacheKeyKey, Value.int 10000), (mempoolSizeKey, Value.int 5000),
      (loggingPortKey, Value.int 26660), (proxyPortKey, Value.int 26658),
      (rpcPortKey, Value.int 26657), (p2pPortKey, Value.int 26656),
      (nodesKey, Value.strs ["192.168.0.1", "192.168.0.2", "192.168.0.3"]),
      (pexKey, Value.bool false), (versionKey, Value.str "0.26.0")],
    config := file, override := [] }

/-- In the words of the specification: the nine settings equal the values of the file for
their keys, and the defaults of `setDefaults` for the keys the file does not have. -/
def SettingsEqualFile (file : Settings) (a : App) : Prop :=
  EqualsFile file versionKey Value.str "0.26.0" a.tmVersion ∧
  EqualsFile file pexKey Value.bool false a.pexEnabled ∧
  EqualsFile file nodesKey Value.strs ["192.168.0.1", "192.168.0.2", "192.168.0.3"] a.nodes ∧
  EqualsFile file p2pPortKey Value.int 26656 a.p2pPort ∧
  EqualsFile file rpcPortKey Value.int 26657 a.rpcPort ∧
  EqualsFile file proxyPortKey Value.int 26658 a.proxyPort ∧
  EqualsFile file loggingPortKey Value.int 26660 a.loggingPort ∧
  EqualsFile file txCacheKeyKey Value.int 10000 a.txCacheSize ∧
  EqualsFile file mempoolSizeKey Value.int 5000 a.memPoolSize

/-- A world whose settings file gives a text for the key `p2p-port`. -/
def textPortEnv : Env where
  readInConfig := fun name _ =>
    if name = "net" then Except.ok [("p2p-port", Value.str "abc")]
    else Except.error "Not Found"
  removeAll := fun _ => none
  combinedOutput := fun _ _ => (some "Successfully initialized 3 node directories", none)

/-- The instance of node `i` when it is read: new, with the config name and the search path
of the node. -/
def freshNodeViper (i : Nat) : Viper :=
  { configName := "config", configPaths := [App.nodeConfigPath i], defaults := [], config := [],
    override := [] }

/-- The instance of node `i` when it is written: `file` loaded, and the `Set` calls made. -/
def patchedNodeViper (c : Cast) (app : App) (i : Nat) (file : Settings) : Viper :=
  App.patchNodeConfig c app i ((freshNodeViper i).loaded file)

/-- The error `readTestnetConfigs` returns when the config of node `i` fails to load
with `e`. -/
def loadError (i : Nat) (e : String) : String :=
  "cannot load node" ++ itoa (Int.ofNat i) ++ " 'config.toml' file: " ++ e ++ " \n"

/-- The events of round `i` when the config of the node fails to load. -/
def failedRoundEvents (i : Nat) : List Event :=
  [Event.log Level.info ("reading node" ++ itoa (Int.ofNat i) ++ " 'config.toml' file"),
    Event.readInConfig "config" [App.nodeConfigPath i]]

/-- The events of round `i` when the config of the node loads as `file`. -/
def okRoundEvents (c : Cast) (app : App) (i : Nat) (file : Settings) : List Event :=
  [Event.log Level.info ("reading node" ++ itoa (Int.ofNat i) ++ " 'config.toml' file"),
    Event.readInConfig "config" [App.nodeConfigPath i],
    Event.log Level.info (fmtStrings ((freshNodeViper i).loaded file).AllKeys),
    Event.log Level.info (App.substitutedPeers c app ((freshNodeViper i).loaded file)),
    Event.writeConfig "config" [App.nodeConfigPath i] (patchedNodeViper c app i file).AllSettings,
    Event.log Level.info ("updated tendermint generated config for node" ++
      itoa (Int.ofNat i) ++ " with custom properties")]

/-- The rounds `i, i+1, ..` of the loop, `k` of them, told from the answers of the world:
the error if any, the instances appended to `nodeConfigs`, and the events. -/
def roundsFrom (c : Cast) (env : Env) (app : App) : Nat → Nat → Option String × List Viper × List Event
  | 0, _ => (none, [], [])
  | k + 1, i =>
    match env.readInConfig "config" [App.nodeConfigPath i] with
    | Except.error e => (some (loadError i e), [freshNodeViper i], failedRoundEvents i)
    | Except.ok file =>
      match roundsFrom c env app k (i + 1) with
      | (r, vs, t) => (r, patchedNodeViper c app i file :: vs, okRoundEvents c app i file ++ t)

/-- An access of a run to a config file: the search paths of the instance read or written. -/
inductive Access where
  | read (paths : List String)
  | write (paths : List String)
  deriving DecidableEq, Repr

/-- The access to a config file an event is, if it is one. -/
def Event.access : Event → Option Access
  | Event.readInConfig _ paths => some (Access.read paths)
  | Event.writeConfig _ paths _ => some (Access.write paths)
  | _ => none

/-- The executable and the arguments of a subprocess an event starts, if it starts one. -/
def Event.subprocess : Event → Option (String × List String)
  | Event.command name args => some (name, args)
  | _ => none

/-- The number a list of decimal digits writes. -/
def digitsValue (ds : List Char) : Nat :=
  ds.foldl (fun acc c => acc * 10 + (c.toNat - 48)) 0

/-- The config the generator leaves for a node of a network of two. -/
def generatedConfig : Settings :=
  [("moniker", Value.str "quirky-node"),
    ("p2p.persistent_peers", Value.str "a1@192.168.0.1:26656,b2@192.168.0.2:26656"),
    ("p2p.laddr", Value.str "tcp://0.0.0.0:26656"),
    ("mempool.size", Value.int 5000),
    ("mempool.cache_size", Value.int 10000)]

/-- A world with a settings file for two nodes, a generator that succeeds, and the configs
of both nodes. -/
def twoNodeEnv : Env where
  readInConfig := fun name paths =>
    if name = "net" then
      Except.ok [("nodes", Value.strs ["10.0.0.1", "10.0.0.2"]), ("p2p-port", Value.int 30000)]
    else if paths = ["./basenet/node0/config/"] ∨ paths = ["./basenet/node1/config/"] then
      Except.ok generatedConfig
    else Except.error "Not Found"
  removeAll := fun _ => none
  combinedOutput := fun _ _ => (some "Successfully initialized 2 node directories", none)

/-- The world `twoNodeEnv` without the config of node 1. -/
def missingNodeEnv : Env where
  readInConfig := fun name paths =>
    if name = "net" then
      Except.ok [("nodes", Value.strs ["10.0.0.1", "10.0.0.2"]), ("p2p-port", Value.int 30000)]
    else if paths = ["./basenet/node0/config/"] then Except.ok generatedConfig
    else Except.error "Not Found"
  removeAll := fun _ => none
  combinedOutput := fun _ _ => (some "Successfully initialized 2 node directories", none)

/-- An `App` with the settings `Run` has in these worlds, and no node config yet. -/
def twoNodeApp : App :=
  { tmVersion := "0.26.0", pexEnabled := false, nodes := ["10.0.0.1", "10.0.0.2"],
    p2pPort := 30000, rpcPort := 26657, proxyPort := 26658, loggingPort := 26660,
    txCacheSize := 10000, memPoolSize := 5000, config := viper.New, nodeConfigs := [] }

/-- The config `readTestnetConfigs` writes for node 0 in the world `twoNodeEnv`. -/
def node0Written : Settings :=
  [("rpc.laddr", Value.str "tcp://0.0.0.0:26657"),
    ("instrumentation.prometheus_listen_addr", Value.str ":26660"),
    ("p2p.pex", Value.str "false"),
    ("p2p.size", Value.int 5000),
    ("p2p.cache_size", Value.int 10000),
    ("proxy_app", Value.str "tcp://127.0.0.1:26658"),
    ("moniker", Value.str "node0"),
    ("p2p.persistent_peers", Value.str "a1@10.0.0.1:30000,b2@10.0.0.2:30000"),
    ("p2p.laddr", Value.str "tcp://0.0.0.0:30000"),
    ("mempool.size", Value.int 5000),
    ("mempool.cache_size", Value.int 10000)]

/-- The string `s1` is `s` with its first occurrence of `old` replaced by `new`: `s` itself
when `old` does not occur in it, and otherwise `a ++ new ++ b` where `s = a ++ old ++ b` and no
occurrence of `old` starts inside `a`. -/
def FirstReplaced (s old new s1 : List Char) : Prop :=
  (¬ old <:+: s ∧ s1 = s) ∨
  ∃ a b, s = a ++ old ++ b ∧ s1 = a ++ new ++ b ∧
    ∀ a1 a2, a = a1 ++ a2 → a2 ≠ [] → ¬ old <+: a2 ++ old ++ b

/-- The peers string after the first `j` rounds of the substitution loop. -/
def peersAfter (peers : String) (nodes : List String) (p2pPort : Int) (j : Nat) : String :=
  App.substitutePeers peers (nodes.take j) p2pPort

/-- The string `s` with, from left to right, every occurrence of a pattern
`192.168.0.<j+1>:26656` replaced by `<nodes[j]>:<p2pPort>`, the replacements not being looked
at again; `fuel` bounds the number of steps. -/
def replaceEveryOccurrenceAux (nodes : List String) (p2pPort : Int) : Nat → List Char → List Char
  | 0, s => s
  | _ + 1, [] => []
  | fuel + 1, c :: s =>
    match (List.range nodes.length).find?
      (fun j => (App.peerPattern j).data.isPrefixOf (c :: s)) with
    | some j =>
      (App.peerAddress (nodes.getD j "") p2pPort).data ++
        replaceEveryOccurrenceAux nodes p2pPort fuel
          ((c :: s).drop (App.peerPattern j).data.length)
    | none => c :: replaceEveryOccurrenceAux nodes p2pPort fuel s

/-- In the words of the specification: the string `peers` with every occurrence of a pattern
`192.168.0.<j+1>:26656` replaced once by `<nodes[j]>:<p2pPort>` and every other character
kept; a step takes at least one character, so that the length of the string is fuel
enough. -/
def replaceEveryOccurrence (peers : String) (nodes : List String) (p2pPort : Int) : String :=
  ⟨replaceEveryOccurrenceAux nodes p2pPort peers.data.length peers.data⟩

/-- The text every pattern of the substitution loop starts with. -/
def ipPrefix : List Char := "192.168.0.".data

/-- No occurrence of `ipPrefix` starts inside `a`, whatever follows `a`. -/
def NoStart (a : List Char) : Prop :=
  ∀ a1 a2 y, a = a1 ++ a2 → a2 ≠ [] → ¬ ipPrefix <+: a2 ++ y

/-- The entries `<id>@192.168.0.<k+1>:26656`, `<id>@192.168.0.<k+2>:26656`, .. the generator
writes for the nodes with the given ids. -/
def generatedEntries : Nat → List String → List String
  | _, [] => []
  | k, id :: ids =>
    (id ++ "@192.168.0." ++ itoa (Int.ofNat (k + 1)) ++ ":26656") :: generatedEntries (k + 1) ids

/-- The entries `<id>@<node>:<p2pPort>` for the ids and the nodes, in order. -/
def substitutedEntries (p2pPort : Int) : List String → List String → List String
  | id :: ids, node :: nodes =>
    (id ++ "@" ++ node ++ ":" ++ itoa p2pPort) :: substitutedEntries p2pPort ids nodes
  | _, _ => []

/-- The entries joined by ",". -/
def joinComma : List String → String
  | [] => ""
  | [e] => e
  | e :: e1 :: es => e ++ "," ++ joinComma (e1 :: es)

/-! ## Lemmas on the string functions -/

theorem containsSub_iff_infix (s sub : List Char) : containsSub s sub = true ↔ sub <:+: s := by
  induction s with
  | nil => simp [containsSub, List.infix_nil]
  | cons c s ih =>
    rw [containsSub, Bool.or_eq_true, List.isPrefixOf_iff_prefix, ih, List.infix_cons_iff]

theorem strings_Contains_iff (s substr : String) :
    strings.Contains s substr = true ↔ substr.data <:+: s.data :=
  containsSub_iff_infix s.data substr.data

/-! ## The generator -/

/-- C8: `generateTestnet` returns an error exactly when the subprocess call returns an error,
or its combined output is nil, or the output does not contain "Successfully"; an output that
contains "Successfully", from a subprocess that ended without error, gives nil. -/
theorem generateTestnet_error_iff (env : Env) (app : App) :
    ((app.generateTestnet env).1 ≠ none ↔
      ((env.combinedOutput app.tmPath app.tmArgs).2 ≠ none ∨
        (env.combinedOutput app.tmPath app.tmArgs).1 = none ∨
        ∃ output, (env.combinedOutput app.tmPath app.tmArgs).1 = some output ∧
          ¬ "Successfully".data <:+: output.data)) ∧
    (∀ output, env.combinedOutput app.tmPath app.tmArgs = (some output, none) →
      "Successfully".data <:+: output.data → (app.generateTestnet env).1 = none) := by
  unfold App.generateTestnet
  rcases h : env.combinedOutput app.tmPath app.tmArgs with ⟨out, err⟩
  cases err with
  | some e => simp
  | none =>
    cases out with
    | none => simp
    | some o =>
      by_cases hc : strings.Contains o "Successfully" = true
      · have hi := (strings_Contains_iff o "Successfully").1 hc
        simp [hc, hi]
      · have hi : ¬ "Successfully".data <:+: o.data :=
          fun hi => hc ((strings_Contains_iff o "Successfully").2 hi)
        simp [hc, hi]

/-! ## The run -/

/-- C4: when `readCustomConfig` fails (the settings file 'net' is missing or does not load),
the run consists of the announcement of the read, the read itself and the logged error:
`./basenet` is not removed, the generator is not started, no node config is read or written. -/
theorem Run_aborts_when_readCustomConfig_fails (c : Cast) (env : Env) (app : App) (e : String)
    (h : env.readInConfig "net" ["."] = Except.error e) :
    (App.Run c env app).2 =
      [Event.log Level.info "reading 'net.json' config files",
        Event.readInConfig "net" ["."],
        Event.log Level.error ("cannot load 'net.json' file: " ++ e ++ " \n")] := by
  simp [App.Run, App.readCustomConfig, Viper.ReadInConfig, Viper.SetConfigName,
    Viper.AddConfigPath, App.setDefaults, App.updateConfig, Viper.SetDefault, viper.New, h]

/-- The run in the world `noSettingsEnv`. -/
theorem Run_aborts_when_readCustomConfig_fails_witness :
    (App.Run zeroCast noSettingsEnv New).2 =
      [Event.log Level.info "reading 'net.json' config files",
        Event.readInConfig "net" ["."],
        Event.log Level.error
          ("cannot load 'net.json' file: " ++ "Config File \"net\" Not Found in \"[.]\"" ++ " \n")] :=
  Run_aborts_when_readCustomConfig_fails zeroCast noSettingsEnv New
    "Config File \"net\" Not Found in \"[.]\"" rfl

/-- C1 (the code does otherwise): in a world where the generator exits with an error,
`generateTestnet`, on the settings of the run, returns that error, and the run goes on all the
same: it reads and rewrites the config of node 0 and logs "done.". -/
theorem Run_ignores_generateTestnet_error :
    (App.generateTestnet failingGeneratorEnv (App.Run zeroCast failingGeneratorEnv New).1).1
        = some "exit status 1" ∧
      Event.readInConfig "config" ["./basenet/node0/config/"]
        ∈ (App.Run zeroCast failingGeneratorEnv New).2 ∧
      Event.writeConfig "config" ["./basenet/node0/config/"]
          [("rpc.laddr", Value.str "tcp://0.0.0.0:26657"),
           ("instrumentation.prometheus_listen_addr", Value.str ":26660"),
           ("p2p.pex", Value.str "false"),
           ("p2p.size", Value.int 5000),
           ("p2p.cache_size", Value.int 10000),
           ("p2p.laddr", Value.str "tcp://0.0.0.0:26656"),
           ("proxy_app", Value.str "tcp://127.0.0.1:26658"),
           ("moniker", Value.str "node0"),
           ("p2p.persistent_peers", Value.str "a@10.0.0.1:26656")]
        ∈ (App.Run zeroCast failingGeneratorEnv New).2 ∧
      Event.log Level.info "done." ∈ (App.Run zeroCast failingGeneratorEnv New).2 := by
  refine ⟨by decide, by decide, by decide, by decide⟩

/-! ## One round of `readTestnetConfigs` -/

theorem readTestnetConfigsRound_error (c : Cast) (env : Env) (app : App) (i : Nat) (e : String)
    (h : env.readInConfig (app.nodeViper i).configName (app.nodeViper i).configPaths
      = Except.error e) :
    App.readTestnetConfigsRound c env app i =
      (some ("cannot load node" ++ itoa (Int.ofNat i) ++ " 'config.toml' file: " ++ e ++ " \n"),
        { app with nodeConfigs := (app.nodeConfigs ++ [viper.New]).set i (app.nodeViper i) },
        [Event.log Level.info ("reading node" ++ itoa (Int.ofNat i) ++ " 'config.toml' file"),
          Event.readInConfig (app.nodeViper i).configName (app.nodeViper i).configPaths]) := by
  simp [App.readTestnetConfigsRound, Viper.ReadInConfig, h]

theorem readTestnetConfigsRound_ok (c : Cast) (env : Env) (app : App) (i : Nat) (file : Settings)
    (h : env.readInConfig (app.nodeViper i).configName (app.nodeViper i).configPaths
      = Except.ok file) :
    App.readTestnetConfigsRound c env app i =
      (none,
        { app with
          nodeConfigs := (app.nodeConfigs ++ [viper.New]).set i
            (App.patchNodeConfig c app i ((app.nodeViper i).loaded file)) },
        [Event.log Level.info ("reading node" ++ itoa (Int.ofNat i) ++ " 'config.toml' file"),
          Event.readInConfig (app.nodeViper i).configName (app.nodeViper i).configPaths,
          Event.log Level.info (fmtStrings ((app.nodeViper i).loaded file).AllKeys),
          Event.log Level.info
            (App.substitutedPeers c app ((app.nodeViper i).loaded file)),
          Event.writeConfig (app.nodeViper i).configName (app.nodeViper i).configPaths
            (App.patchNodeConfig c app i ((app.nodeViper i).loaded file)).AllSettings,
          Event.log Level.info ("updated tendermint generated config for node" ++
            itoa (Int.ofNat i) ++ " with custom properties")]) := by
  simp [App.readTestnetConfigsRound, Viper.ReadInConfig, h, Viper.WriteConfig,
    App.patchNodeConfig, Viper.Set, Viper.loaded]

theorem readTestnetConfigsRound_app (c : Cast) (env : Env) (app : App) (i : Nat) :
    ∃ ncs, (App.readTestnetConfigsRound c env app i).2.1 = { app with nodeConfigs := ncs } ∧
      ncs.length = app.nodeConfigs.length + 1 := by
  rcases h : env.readInConfig (app.nodeViper i).configName (app.nodeViper i).configPaths
    with e | file
  · rw [readTestnetConfigsRound_error c env app i e h]
    exact ⟨_, rfl, by simp⟩
  · rw [readTestnetConfigsRound_ok c env app i file h]
    exact ⟨_, rfl, by simp⟩

theorem readTestnetConfigsFrom_app (c : Cast) (env : Env) (k : Nat) :
    ∀ (i : Nat) (app : App),
      ∃ ncs, (App.readTestnetConfigsFrom c env k i app).2.1 = { app with nodeConfigs := ncs } := by
  induction k with
  | zero => intro i app; exact ⟨app.nodeConfigs, rfl⟩
  | succ k ih =>
    intro i app
    obtain ⟨ncs, h, -⟩ := readTestnetConfigsRound_app c env app i
    rcases hr : App.readTestnetConfigsRound c env app i with ⟨r, app1, t⟩
    rw [hr] at h
    simp only at h
    subst h
    cases r with
    | some e => exact ⟨ncs, by simp [App.readTestnetConfigsFrom, hr]⟩
    | none =>
      obtain ⟨ncs2, h2⟩ := ih (i + 1) { app with nodeConfigs := ncs }
      exact ⟨ncs2, by simp [App.readTestnetConfigsFrom, hr, h2]⟩

theorem readTestnetConfigs_settings (c : Cast) (env : Env) (app : App) :
    (App.readTestnetConfigs c env app).2.1.settings = app.settings := by
  obtain ⟨ncs, h⟩ := readTestnetConfigsFrom_app c env app.nodes.length 0 app
  unfold App.readTestnetConfigs
  simp only []
  rw [h]
  rfl

/-! ## The settings after the settings file is read -/

theorem setDefaults_config (app : App) :
    (App.setDefaults { app with config := viper.New }).config =
      { settingsViper [] with configName := "config", configPaths := [] } := by
  simp only [App.setDefaults, Viper.SetDefault, viper.New, settingsViper]
  congr 1

theorem Run_settings (c : Cast) (env : Env) (app : App) (file : Settings)
    (h : env.readInConfig "net" ["."] = Except.ok file) :
    (App.Run c env app).1.settings =
      ((settingsViper file).GetString c versionKey, (settingsViper file).GetBool c pexKey,
        (settingsViper file).GetStringSlice c nodesKey, (settingsViper file).GetInt c p2pPortKey,
        (settingsViper file).GetInt c rpcPortKey, (settingsViper file).GetInt c proxyPortKey,
        (settingsViper file).GetInt c loggingPortKey, (settingsViper file).GetInt c txCacheKeyKey,
        (settingsViper file).GetInt c mempoolSizeKey) := by
  have hv : (((App.setDefaults { app with config := viper.New }).config.SetConfigName
      "net").AddConfigPath ".") = settingsViper [] := by
    rw [setDefaults_config]
    simp [Viper.SetConfigName, Viper.AddConfigPath, settingsViper]
  have hr : App.readCustomConfig env
      (App.updateConfig c (App.setDefaults { app with config := viper.New })) =
      (none, { App.updateConfig c (App.setDefaults { app with config := viper.New }) with
          config := settingsViper file },
        [Event.log Level.info "reading 'net.json' config files",
          Event.readInConfig "net" ["."]]) := by
    unfold App.readCustomConfig
    simp only [App.updateConfig, hv]
    simp [Viper.ReadInConfig, settingsViper, h, Viper.loaded]
  unfold App.Run
  simp only [hr]
  rcases h3 : env.removeAll genDirName with _ | e
  · simp only [App.removeExisting, h3]
    rcases h5 : App.readTestnetConfigs c env (App.updateConfig c
      { App.updateConfig c (App.setDefaults { app with config := viper.New }) with
          config := settingsViper file }) with ⟨r, a, t⟩
    have h6 := readTestnetConfigs_settings c env (App.updateConfig c
      { App.updateConfig c (App.setDefaults { app with config := viper.New }) with
          config := settingsViper file })
    rw [h5] at h6
    simp only at h6
    cases r <;> simp only [h6] <;> rfl
  · simp only [App.removeExisting, h3]
    rfl

theorem settingsViper_Get (file : Settings) (key : String) :
    (settingsViper file).Get key =
      match file.lookup key with
      | some x => some x
      | none => (settingsViper []).defaults.lookup key := by
  simp only [Viper.Get, settingsViper, List.lookup]

theorem followsFileInt_GetInt (c : Cast) (file : Settings) (key : String) (dflt : Int)
    (hd : (settingsViper []).defaults.lookup key = some (Value.int dflt))
    (hr : -maxExactInt ≤ dflt ∧ dflt ≤ maxExactInt) :
    FollowsFileInt file key c.ToInt dflt ((settingsViper file).GetInt c key) := by
  unfold FollowsFileInt Viper.GetInt
  rw [settingsViper_Get]
  cases hl : List.lookup key file with
  | none =>
    simp only [hd, c.ToInt_int dflt hr.1 hr.2, true_implies, reduceCtorEq, false_implies,
      implies_true, true_and]
    rw [← c.ToInt_int dflt hr.1 hr.2]
    exact c.ToInt_range _
  | some v =>
    refine ⟨fun h0 => Option.noConfusion h0, fun n h1 h2 h3 => ?_, fun w hw => ?_,
      c.ToInt_range v⟩
    · have hv : v = Value.int n := Option.some.inj h3
      rw [hv]
      exact c.ToInt_int n h1 h2
    · have hv : v = w := Option.some.inj hw
      rw [hv]

/-- C2 (as stated, refuted): with the settings file `{"p2p-port": "abc"}`, which loads, the
setting `p2pPort` is an integer and not the text the file has for the key, whatever the
conversions of the library are; with the conversions of the examples it is 0. -/
theorem Run_settings_not_equal_file :
    (¬ ∃ c : Cast, SettingsEqualFile [("p2p-port", Value.str "abc")]
      (App.Run c textPortEnv New).1) ∧
    (App.Run zeroCast textPortEnv New).1.p2pPort = 0 := by
  refine ⟨?_, by decide⟩
  rintro ⟨c, -, -, -, h, -⟩
  have h2 : List.lookup p2pPortKey [("p2p-port", Value.str "abc")] = some (Value.str "abc") := by
    decide
  simp only [EqualsFile, h2] at h
  exact Value.noConfusion h

/-- C2 (amended): when the settings file loads, each of the nine settings is the default of
`setDefaults` if the file does not have its key, the value of the file if that is a value of
the type of the setting (for the six integer settings: an integer of magnitude at most `2^53`,
which reaches `GetInt` unchanged), and in any case the value of the file as the typed getter of
viper converts it, for the integer settings a Go `int` of 64 bits; two files that agree on the
nine keys give the same settings. -/
theorem Run_settings_follow_file (c : Cast) (env : Env) (app : App) (file : Settings)
    (h : env.readInConfig "net" ["."] = Except.ok file) :
    FollowsFile file versionKey Value.str c.ToString "0.26.0" (App.Run c env app).1.tmVersion ∧
    FollowsFile file pexKey Value.bool c.ToBool false (App.Run c env app).1.pexEnabled ∧
    FollowsFile file nodesKey Value.strs c.ToStringSlice
      ["192.168.0.1", "192.168.0.2", "192.168.0.3"] (App.Run c env app).1.nodes ∧
    FollowsFileInt file p2pPortKey c.ToInt 26656 (App.Run c env app).1.p2pPort ∧
    FollowsFileInt file rpcPortKey c.ToInt 26657 (App.Run c env app).1.rpcPort ∧
    FollowsFileInt file proxyPortKey c.ToInt 26658 (App.Run c env app).1.proxyPort ∧
    FollowsFileInt file loggingPortKey c.ToInt 26660 (App.Run c env app).1.loggingPort ∧
    FollowsFileInt file txCacheKeyKey c.ToInt 10000 (App.Run c env app).1.txCacheSize ∧
    FollowsFileInt file mempoolSizeKey c.ToInt 5000 (App.Run c env app).1.memPoolSize ∧
    (∀ (env1 : Env) (app1 : App) (file1 : Settings),
      env1.readInConfig "net" ["."] = Except.ok file1 →
      (∀ k ∈ settingKeys, file1.lookup k = file.lookup k) →
      (App.Run c env1 app1).1.settings = (App.Run c env app).1.settings) := by
  have hs := Run_settings c env app file h
  simp only [App.settings, Prod.mk.injEq] at hs
  obtain ⟨h1, h2, h3, h4, h5, h6, h7, h8, h9⟩ := hs
  have d1 : (settingsViper []).defaults.lookup versionKey = some (Value.str "0.26.0") := by decide
  have d2 : (settingsViper []).defaults.lookup pexKey = some (Value.bool false) := by decide
  have d3 : (settingsViper []).defaults.lookup nodesKey
      = some (Value.strs ["192.168.0.1", "192.168.0.2", "192.168.0.3"]) := by decide
  have d4 : (settingsViper []).defaults.lookup p2pPortKey = some (Value.int 26656) := by decide
  have d5 : (settingsViper []).defaults.lookup rpcPortKey = some (Value.int 26657) := by decide
  have d6 : (settingsViper []).defaults.lookup proxyPortKey = some (Value.int 26658) := by decide
  have d7 : (settingsViper []).defaults.lookup loggingPortKey = some (Value.int 26660) := by
    decide
  have d8 : (settingsViper []).defaults.lookup txCacheKeyKey = some (Value.int 10000) := by decide
  have d9 : (settingsViper []).defaults.lookup mempoolSizeKey = some (Value.int 5000) := by decide
  refine ⟨?_, ?_, ?_, ?_, ?_, ?_, ?_, ?_, ?_, ?_⟩
  · rw [h1]
    refine ⟨fun hn => ?_, fun y hy => ?_, fun v hv => ?_⟩ <;>
      simp [Viper.GetString, settingsViper_Get, *, c.ToString_str]
  · rw [h2]
    refine ⟨fun hn => ?_, fun y hy => ?_, fun v hv => ?_⟩ <;>
      simp [Viper.GetBool, settingsViper_Get, *, c.ToBool_bool]
  · rw [h3]
    refine ⟨fun hn => ?_, fun y hy => ?_, fun v hv => ?_⟩ <;>
      simp [Viper.GetStringSlice, settingsViper_Get, *, c.ToStringSlice_strs]
  · rw [h4]
    exact followsFileInt_GetInt c file p2pPortKey _ d4 (by decide)
  · rw [h5]
    exact followsFileInt_GetInt c file rpcPortKey _ d5 (by decide)
  · rw [h6]
    exact followsFileInt_GetInt c file proxyPortKey _ d6 (by decide)
  · rw [h7]
    exact followsFileInt_GetInt c file loggingPortKey _ d7 (by decide)
  · rw [h8]
    exact followsFileInt_GetInt c file txCacheKeyKey _ d8 (by decide)
  · rw [h9]
    exact followsFileInt_GetInt c file mempoolSizeKey _ d9 (by decide)
  · intro env1 app1 file1 hf hk
    rw [Run_settings c env1 app1 file1 hf, Run_settings c env app file h]
    simp only [Viper.GetString, Viper.GetBool, Viper.GetStringSlice, Viper.GetInt,
      settingsViper_Get]
    rw [hk versionKey (by simp [settingKeys]), hk pexKey (by simp [settingKeys]),
      hk nodesKey (by simp [settingKeys]), hk p2pPortKey (by simp [settingKeys]),
      hk rpcPortKey (by simp [settingKeys]), hk proxyPortKey (by simp [settingKeys]),
      hk loggingPortKey (by simp [settingKeys]), hk txCacheKeyKey (by simp [settingKeys]),
      hk mempoolSizeKey (by simp [settingKeys])]

/-! ## Lemmas on viper -/

theorem lookup_filter_ne (m : Settings) (k key : String) (h : key ≠ k) :
    List.lookup key (m.filter (fun p => p.1 != k)) = List.lookup key m := by
  induction m with
  | nil => rfl
  | cons p m ih =>
    obtain ⟨a, b⟩ := p
    by_cases hak : a = k
    · subst hak
      have hne : (key == a) = false := by simpa using h
      simp [List.filter, List.lookup, hne, ih]
    · have hf : (a != k) = true := by simpa using hak
      by_cases hka : key = a
      · subst hka; simp [List.filter, List.lookup, hf]
      · have hne : (key == a) = false := by simpa using hka
        simp [List.filter, List.lookup, hne, ih, hf]

theorem lookup_insert (m : Settings) (k : String) (v : Value) (key : String) :
    List.lookup key (m.insert k v) = if key = k then some v else List.lookup key m := by
  unfold Settings.insert
  by_cases h : key = k
  · subst h; simp [List.lookup]
  · have hne : (key == k) = false := by simpa using h
    simp [List.lookup, hne, h, lookup_filter_ne m k key h]

theorem Get_Set (v : Viper) (k : String) (x : Value) (key : String) :
    (v.Set k x).Get key = if key = k then some x else v.Get key := by
  unfold Viper.Get Viper.Set
  simp only [lookup_insert]
  by_cases h : key = k <;> simp [h]

theorem lookup_filterMap_keys (g : String → Option Value) (ks : List String) (key : String) :
    List.lookup key (ks.filterMap (fun k => (g k).map (fun x => (k, x)))) =
      if key ∈ ks then g key else none := by
  induction ks with
  | nil => simp
  | cons a ks ih =>
    by_cases hka : key = a
    · subst hka
      cases hg : g key with
      | none => simp [List.filterMap_cons, hg, ih]
      | some x => simp [List.filterMap_cons, hg, List.lookup]
    · have hne : (key == a) = false := by simpa using hka
      cases hg : g a with
      | none => simp [List.filterMap_cons, hg, ih, hka]
      | some x => simp [List.filterMap_cons, hg, List.lookup, hne, ih, hka]

theorem lookup_eq_none_of_not_mem (m : Settings) (key : String)
    (h : key ∉ m.map Prod.fst) : List.lookup key m = none := by
  induction m with
  | nil => rfl
  | cons p m ih =>
    obtain ⟨a, b⟩ := p
    simp only [List.map_cons, List.mem_cons, not_or] at h
    have hne : (key == a) = false := by simpa using h.1
    simp [List.lookup, hne, ih h.2]

theorem AllSettings_lookup (v : Viper) (key : String) :
    List.lookup key v.AllSettings = v.Get key := by
  unfold Viper.AllSettings
  rw [lookup_filterMap_keys]
  split
  · rfl
  · rename_i h
    unfold Viper.AllKeys at h
    rw [List.mem_dedup] at h
    simp only [List.map_append, List.mem_append, not_or] at h
    unfold Viper.Get
    rw [lookup_eq_none_of_not_mem _ _ h.1.1, lookup_eq_none_of_not_mem _ _ h.1.2,
      lookup_eq_none_of_not_mem _ _ h.2]

/-! ## The loop of `readTestnetConfigs` on a new `App` -/

theorem nodeConfigPath_ne_empty (i : Nat) : App.nodeConfigPath i ≠ "" := by
  intro h
  have h2 := congrArg String.data h
  simp [App.nodeConfigPath, String.data_append] at h2

theorem patchNodeConfig_nodeConfigs (c : Cast) (app : App) (ncs : List Viper) (i : Nat)
    (v : Viper) :
    App.patchNodeConfig c { app with nodeConfigs := ncs } i v = App.patchNodeConfig c app i v := by
  simp only [App.patchNodeConfig, App.substitutedPeers]

theorem substitutedPeers_nodeConfigs (c : Cast) (app : App) (ncs : List Viper) (v : Viper) :
    App.substitutedPeers c { app with nodeConfigs := ncs } v = App.substitutedPeers c app v := by
  simp only [App.substitutedPeers]

theorem nodeViper_eq (app : App) (ncs : List Viper) :
    App.nodeViper { app with nodeConfigs := ncs } ncs.length = freshNodeViper ncs.length := by
  unfold App.nodeViper
  have hg : (ncs ++ [viper.New]).getD ncs.length viper.New = viper.New := by
    simp [List.getD]
  simp only [hg]
  simp [Viper.SetConfigName, Viper.AddConfigPath, viper.New, freshNodeViper,
    nodeConfigPath_ne_empty]

theorem readTestnetConfigsFrom_eq (c : Cast) (env : Env) (app : App) (k : Nat) :
    ∀ (ncs : List Viper),
      App.readTestnetConfigsFrom c env k ncs.length { app with nodeConfigs := ncs } =
        ((roundsFrom c env app k ncs.length).1,
          { app with nodeConfigs := ncs ++ (roundsFrom c env app k ncs.length).2.1 },
          (roundsFrom c env app k ncs.length).2.2) := by
  induction k with
  | zero => intro ncs; simp [App.readTestnetConfigsFrom, roundsFrom]
  | succ k ih =>
    intro ncs
    have hv := nodeViper_eq app ncs
    rcases h : env.readInConfig "config" [App.nodeConfigPath ncs.length] with e | file
    · have h2 : env.readInConfig
          (App.nodeViper { app with nodeConfigs := ncs } ncs.length).configName
          (App.nodeViper { app with nodeConfigs := ncs } ncs.length).configPaths
          = Except.error e := by rw [hv]; exact h
      simp only [App.readTestnetConfigsFrom, roundsFrom, h,
        readTestnetConfigsRound_error c env _ _ e h2, hv]
      simp [loadError, failedRoundEvents, freshNodeViper]
    · have h2 : env.readInConfig
          (App.nodeViper { app with nodeConfigs := ncs } ncs.length).configName
          (App.nodeViper { app with nodeConfigs := ncs } ncs.length).configPaths
          = Except.ok file := by rw [hv]; exact h
      have ih2 := ih (ncs ++ [patchedNodeViper c app ncs.length file])
      simp only [List.length_append, List.length_singleton] at ih2
      simp only [App.readTestnetConfigsFrom, roundsFrom, h,
        readTestnetConfigsRound_ok c env _ _ file h2, hv]
      have hset : (ncs ++ [viper.New]).set ncs.length
          (App.patchNodeConfig c { app with nodeConfigs := ncs } ncs.length
            ((freshNodeViper ncs.length).loaded file)) =
          ncs ++ [patchedNodeViper c app ncs.length file] := by
        simp [patchedNodeViper, patchNodeConfig_nodeConfigs]
      simp only [hset]
      rw [ih2]
      simp only [okRoundEvents, patchNodeConfig_nodeConfigs, substitutedPeers_nodeConfigs,
        patchedNodeViper, freshNodeViper, List.append_assoc, List.singleton_append,
        List.cons_append, List.nil_append]

theorem readTestnetConfigs_eq (c : Cast) (env : Env) (app : App) (h0 : app.nodeConfigs = []) :
    App.readTestnetConfigs c env app =
      ((roundsFrom c env app app.nodes.length 0).1,
        { app with nodeConfigs := (roundsFrom c env app app.nodes.length 0).2.1 },
        Event.log Level.info "read tendermint generated config files" ::
          (roundsFrom c env app app.nodes.length 0).2.2) := by
  have h := readTestnetConfigsFrom_eq c env app app.nodes.length []
  have happ : ({ app with nodeConfigs := [] } : App) = app := by
    cases app; simp_all
  simp only [List.length_nil, List.nil_append, happ] at h
  simp only [App.readTestnetConfigs, h]

theorem roundsFrom_fail (c : Cast) (env : Env) (app : App) (files : Nat → Settings)
    (e : String) :
    ∀ (i k j : Nat), i < k →
      (∀ m, m < i → env.readInConfig "config" [App.nodeConfigPath (j + m)]
        = Except.ok (files (j + m))) →
      env.readInConfig "config" [App.nodeConfigPath (j + i)] = Except.error e →
      roundsFrom c env app k j =
        (some (loadError (j + i) e),
          (List.range' j i).map (fun m => patchedNodeViper c app m (files m))
            ++ [freshNodeViper (j + i)],
          ((List.range' j i).map (fun m => okRoundEvents c app m (files m))).flatten
            ++ failedRoundEvents (j + i)) := by
  intro i
  induction i with
  | zero =>
    intro k j hk _ hf
    obtain ⟨k, rfl⟩ : ∃ k1, k = k1 + 1 := ⟨k - 1, by omega⟩
    simp only [Nat.add_zero] at hf
    simp [roundsFrom, hf]
  | succ i ih =>
    intro k j hk hok hf
    obtain ⟨k, rfl⟩ : ∃ k1, k = k1 + 1 := ⟨k - 1, by omega⟩
    have h0 := hok 0 (by omega)
    simp only [Nat.add_zero] at h0
    have ih2 := ih k (j + 1) (by omega)
      (fun m hm => by
        have := hok (m + 1) (by omega)
        rwa [show j + (m + 1) = j + 1 + m by omega] at this)
      (by rwa [show j + (i + 1) = j + 1 + i by omega] at hf)
    simp only [roundsFrom, h0, ih2, List.range', List.map_cons, List.flatten_cons,
      List.cons_append, List.append_assoc]
    rw [show j + 1 + i = j + (i + 1) by omega]

theorem roundsFrom_access (c : Cast) (env : Env) (app : App) :
    ∀ (k j : Nat), (roundsFrom c env app k j).1 = none →
      (roundsFrom c env app k j).2.2.filterMap Event.access =
        ((List.range' j k).map (fun m =>
          [Access.read [App.nodeConfigPath m], Access.write [App.nodeConfigPath m]])).flatten := by
  intro k
  induction k with
  | zero => intro j _; simp [roundsFrom]
  | succ k ih =>
    intro j h
    rcases hr : env.readInConfig "config" [App.nodeConfigPath j] with e | file
    · simp [roundsFrom, hr] at h
    · simp only [roundsFrom, hr] at h ⊢
      have ih2 := ih (j + 1) h
      simp only [List.filterMap_append, ih2, List.range', List.map_cons, List.flatten_cons]
      simp [okRoundEvents, Event.access, List.filterMap_cons]

theorem writeConfig_mem_roundsFrom (c : Cast) (env : Env) (app : App) (name : String)
    (paths : List String) (s : Settings) :
    ∀ (k j : Nat), Event.writeConfig name paths s ∈ (roundsFrom c env app k j).2.2 →
      ∃ i file, j ≤ i ∧ i < j + k ∧
        env.readInConfig "config" [App.nodeConfigPath i] = Except.ok file ∧
        name = "config" ∧ paths = [App.nodeConfigPath i] ∧
        s = (patchedNodeViper c app i file).AllSettings := by
  intro k
  induction k with
  | zero => intro j h; simp [roundsFrom] at h
  | succ k ih =>
    intro j h
    rcases hr : env.readInConfig "config" [App.nodeConfigPath j] with e | file
    · simp [roundsFrom, hr, failedRoundEvents] at h
    · simp only [roundsFrom, hr, List.mem_append] at h
      rcases h with h | h
      · simp only [okRoundEvents, List.mem_cons, List.mem_singleton, Event.writeConfig.injEq,
          reduceCtorEq, false_or, or_false, List.not_mem_nil] at h
        exact ⟨j, file, le_refl _, by omega, hr, h.1, h.2.1, h.2.2⟩
      · obtain ⟨i, f, h1, h2, h3⟩ := ih (j + 1) h
        exact ⟨i, f, by omega, by omega, h3⟩

/-! ## The decimal rendering names a number -/

theorem digitChar_value (m : Nat) (h : m < 10) : (Nat.digitChar m).toNat - 48 = m := by
  interval_cases m <;> decide

theorem toDigitsCore_append (fuel : Nat) :
    ∀ (n : Nat) (ds : List Char),
      Nat.toDigitsCore 10 fuel n ds = Nat.toDigitsCore 10 fuel n [] ++ ds := by
  induction fuel with
  | zero => intro n ds; simp [Nat.toDigitsCore]
  | succ fuel ih =>
    intro n ds
    simp only [Nat.toDigitsCore]
    split
    · simp
    · rw [ih (n / 10) (Nat.digitChar (n % 10) :: ds), ih (n / 10) [Nat.digitChar (n % 10)]]
      simp

theorem digitsValue_toDigitsCore (fuel : Nat) :
    ∀ (n : Nat), n < fuel → digitsValue (Nat.toDigitsCore 10 fuel n []) = n := by
  induction fuel with
  | zero => intro n h; omega
  | succ fuel ih =>
    intro n h
    simp only [Nat.toDigitsCore]
    split
    · rename_i h0
      have hn : n % 10 = n := Nat.mod_eq_of_lt (by omega)
      have hd := digitChar_value _ (Nat.mod_lt n (by decide))
      rw [hn] at hd
      simp [digitsValue, hn, hd]
    · rename_i h0
      rw [toDigitsCore_append]
      have hlt : n / 10 < fuel := by omega
      have ih2 := ih (n / 10) hlt
      unfold digitsValue at ih2 ⊢
      rw [List.foldl_append, ih2]
      simp only [List.foldl_cons, List.foldl_nil, digitChar_value _ (Nat.mod_lt n (by decide))]
      omega

theorem itoa_ofNat_injective (m n : Nat) (h : itoa (Int.ofNat m) = itoa (Int.ofNat n)) :
    m = n := by
  have h2 : Nat.toDigitsCore 10 (m + 1) m [] = Nat.toDigitsCore 10 (n + 1) n [] :=
    congrArg String.data h
  have h3 := congrArg digitsValue h2
  rwa [digitsValue_toDigitsCore _ _ (Nat.lt_succ_self m),
    digitsValue_toDigitsCore _ _ (Nat.lt_succ_self n)] at h3

theorem nodeConfigPath_injective (i j : Nat) (h : App.nodeConfigPath i = App.nodeConfigPath j) :
    i = j := by
  apply itoa_ofNat_injective
  apply String.ext
  have h2 := congrArg String.data h
  simp only [App.nodeConfigPath, String.data_append] at h2
  exact List.append_cancel_left (List.append_cancel_right h2)

theorem nodeConfigPaths_nodup (n : Nat) :
    ((List.range n).map (fun i => "./basenet/node" ++ itoa (Int.ofNat i) ++ "/config/")).Nodup :=
  (List.nodup_range n).map (fun i j h => nodeConfigPath_injective i j h)

theorem loaded_Get (i : Nat) (file : Settings) (key : String) :
    ((freshNodeViper i).loaded file).Get key = file.lookup key := by
  simp only [Viper.Get, Viper.loaded, freshNodeViper, List.lookup]
  cases List.lookup key file <;> rfl

theorem patchedNodeViper_lookup (c : Cast) (app : App) (i : Nat) (file : Settings)
    (key : String) :
    (patchedNodeViper c app i file).AllSettings.lookup key =
      if key = "rpc.laddr" then some (Value.str ("tcp://0.0.0.0:" ++ itoa app.rpcPort))
      else if key = "instrumentation.prometheus_listen_addr" then
        some (Value.str (":" ++ itoa app.loggingPort))
      else if key = "p2p.pex" then some (Value.str (strconv.FormatBool app.pexEnabled))
      else if key = "p2p.size" then some (Value.int app.memPoolSize)
      else if key = "p2p.cache_size" then some (Value.int app.txCacheSize)
      else if key = "p2p.persistent_peers" then
        some (Value.str (App.substitutePeers
          (match file.lookup "p2p.persistent_peers" with
            | some x => c.ToString x
            | none => "") app.nodes app.p2pPort))
      else if key = "p2p.laddr" then some (Value.str ("tcp://0.0.0.0:" ++ itoa app.p2pPort))
      else if key = "proxy_app" then some (Value.str ("tcp://127.0.0.1:" ++ itoa app.proxyPort))
      else if key = "moniker" then some (Value.str ("node" ++ itoa (Int.ofNat i)))
      else file.lookup key := by
  rw [AllSettings_lookup]
  simp only [patchedNodeViper, App.patchNodeConfig, Get_Set, loaded_Get, App.substitutedPeers,
    Viper.GetString]

/-! ## Properties of `readTestnetConfigs` -/

/-- C5: in `readTestnetConfigs` on a new `App`, when the configs of the nodes before node `i`
load and the config of node `i` fails to load, the function returns the error that names node
`i`; its events are the rounds of the nodes `0..i-1`, each with its read and its write, and
then the read of node `i` alone, so that no node after `i` is read and none from `i` on is
written; the instances of the nodes `0..i-1` carry the new values, that of node `i` none. -/
theorem readTestnetConfigs_stops_at_failure (c : Cast) (env : Env) (app : App)
    (files : Nat → Settings) (i : Nat) (e : String)
    (h0 : app.nodeConfigs = []) (hi : i < app.nodes.length)
    (hok : ∀ j, j < i → env.readInConfig "config" [App.nodeConfigPath j] = Except.ok (files j))
    (hfail : env.readInConfig "config" [App.nodeConfigPath i] = Except.error e) :
    (App.readTestnetConfigs c env app).1 =
        some ("cannot load node" ++ itoa (Int.ofNat i) ++ " 'config.toml' file: " ++ e ++ " \n") ∧
      (App.readTestnetConfigs c env app).2.2 =
        Event.log Level.info "read tendermint generated config files" ::
          (((List.range i).map (fun j => okRoundEvents c app j (files j))).flatten
            ++ failedRoundEvents i) ∧
      (App.readTestnetConfigs c env app).2.2.filterMap Event.access =
        ((List.range i).map (fun j =>
          [Access.read [App.nodeConfigPath j], Access.write [App.nodeConfigPath j]])).flatten
          ++ [Access.read [App.nodeConfigPath i]] ∧
      (App.readTestnetConfigs c env app).2.1.nodeConfigs =
        (List.range i).map (fun j => patchedNodeViper c app j (files j))
          ++ [freshNodeViper i] := by
  have hr := roundsFrom_fail c env app files e i app.nodes.length 0 hi
    (fun m hm => by simpa using hok m hm) (by simpa using hfail)
  simp only [Nat.zero_add, ← List.range_eq_range'] at hr
  rw [readTestnetConfigs_eq c env app h0, hr]
  refine ⟨rfl, rfl, ?_, rfl⟩
  simp only [List.filterMap_cons, Event.access, List.filterMap_append, failedRoundEvents,
    List.filterMap_nil]
  congr 1
  induction (List.range i) with
  | nil => rfl
  | cons a l ih =>
    simp only [List.map_cons, List.flatten_cons, List.filterMap_append, ih]
    simp [okRoundEvents, Event.access, List.filterMap_cons]

/-- C6: `generateTestnet` starts `./tendermint/<tmVersion>/tendermint` once, with the number
of nodes in decimal after `--v`; and when `readTestnetConfigs`, on a new `App`, returns nil, its
accesses to config files are the read and then the write of `./basenet/node<i>/config/` for
`i = 0, .., n-1` in this order, where `n` is the number of nodes; these `n` directories are
different from one another. -/
theorem node_count_is_directory_count (c : Cast) (env : Env) (app : App)
    (h0 : app.nodeConfigs = []) (hs : (App.readTestnetConfigs c env app).1 = none) :
    (app.generateTestnet env).2.filterMap Event.subprocess =
        [("./tendermint/" ++ app.tmVersion ++ "/tendermint",
          ["testnet", "--o", "./basenet", "--v", itoa (Int.ofNat app.nodes.length),
            "--populate-persistent-peers", "--starting-ip-address", "192.168.0.1"])] ∧
      (App.readTestnetConfigs c env app).2.2.filterMap Event.access =
        ((List.range app.nodes.length).map (fun i =>
          [Access.read ["./basenet/node" ++ itoa (Int.ofNat i) ++ "/config/"],
            Access.write ["./basenet/node" ++ itoa (Int.ofNat i) ++ "/config/"]])).flatten ∧
      ((List.range app.nodes.length).map
        (fun i => "./basenet/node" ++ itoa (Int.ofNat i) ++ "/config/")).Nodup := by
  refine ⟨?_, ?_, nodeConfigPaths_nodup _⟩
  · unfold App.generateTestnet
    rcases env.combinedOutput app.tmPath app.tmArgs with ⟨out, err⟩
    cases err with
    | some e => simp [Event.subprocess, App.tmPath, App.tmArgs, genDirName]
    | none =>
      cases out with
      | none => simp [Event.subprocess, App.tmPath, App.tmArgs, genDirName]
      | some o =>
        by_cases hc : strings.Contains o "Successfully" = true <;>
          simp [hc, Event.subprocess, App.tmPath, App.tmArgs, genDirName]
  · rw [readTestnetConfigs_eq c env app h0] at hs ⊢
    have h := roundsFrom_access c env app app.nodes.length 0 hs
    simp only [← List.range_eq_range'] at h
    simp only [List.filterMap_cons, Event.access, h]
    rfl

theorem writeConfig_mem_readTestnetConfigs (c : Cast) (env : Env) (app : App) (name : String)
    (paths : List String) (s : Settings) (h0 : app.nodeConfigs = [])
    (hw : Event.writeConfig name paths s ∈ (App.readTestnetConfigs c env app).2.2) :
    ∃ i file, 0 ≤ i ∧ i < 0 + app.nodes.length ∧
        env.readInConfig "config" [App.nodeConfigPath i] = Except.ok file ∧
        name = "config" ∧ paths = [App.nodeConfigPath i] ∧
        s = (patchedNodeViper c app i file).AllSettings := by
  rw [readTestnetConfigs_eq c env app h0] at hw
  have hw2 : Event.writeConfig name paths s ∈
      Event.log Level.info "read tendermint generated config files" ::
        (roundsFrom c env app app.nodes.length 0).2.2 := hw
  rcases List.mem_cons.1 hw2 with h | h
  · exact Event.noConfusion h
  · exact writeConfig_mem_roundsFrom c env app name paths s app.nodes.length 0 h

/-- C7: every config `readTestnetConfigs` writes, on a new `App`, is the config of a node `i`
that loaded, and has `moniker`, `proxy_app`, `p2p.laddr`, `rpc.laddr`,
`instrumentation.prometheus_listen_addr`, `p2p.pex` and `p2p.persistent_peers` set from the
index, the ports in decimal, `pexEnabled` and the substituted peers of the loaded config. -/
theorem written_config_values (c : Cast) (env : Env) (app : App) (name : String)
    (paths : List String) (s : Settings) (h0 : app.nodeConfigs = [])
    (hw : Event.writeConfig name paths s ∈ (App.readTestnetConfigs c env app).2.2) :
    ∃ i file, i < app.nodes.length ∧
      env.readInConfig "config" ["./basenet/node" ++ itoa (Int.ofNat i) ++ "/config/"]
        = Except.ok file ∧
      name = "config" ∧ paths = ["./basenet/node" ++ itoa (Int.ofNat i) ++ "/config/"] ∧
      s.lookup "moniker" = some (Value.str ("node" ++ itoa (Int.ofNat i))) ∧
      s.lookup "proxy_app" = some (Value.str ("tcp://127.0.0.1:" ++ itoa app.proxyPort)) ∧
      s.lookup "p2p.laddr" = some (Value.str ("tcp://0.0.0.0:" ++ itoa app.p2pPort)) ∧
      s.lookup "rpc.laddr" = some (Value.str ("tcp://0.0.0.0:" ++ itoa app.rpcPort)) ∧
      s.lookup "instrumentation.prometheus_listen_addr"
        = some (Value.str (":" ++ itoa app.loggingPort)) ∧
      s.lookup "p2p.pex" = some (Value.str (if app.pexEnabled then "true" else "false")) ∧
      s.lookup "p2p.persistent_peers" =
        some (Value.str (App.substitutePeers
          (match file.lookup "p2p.persistent_peers" with
            | some x => c.ToString x
            | none => "") app.nodes app.p2pPort)) := by
  obtain ⟨i, file, -, hi, hr, hn, hp, hs⟩ :=
    writeConfig_mem_readTestnetConfigs c env app name paths s h0 hw
  simp only [App.nodeConfigPath] at hr hp
  refine ⟨i, file, ?_, ?_, ?_, ?_, ?_⟩
  · omega
  · exact hr
  · exact hn
  · exact hp
  rw [hs]
  simp only [patchedNodeViper_lookup, String.reduceEq, if_false, if_true, strconv.FormatBool,
    and_self]

/-- C10: every config `readTestnetConfigs` writes, on a new `App`, is the config of a node
that loaded with `p2p.cache_size` set to `txCacheSize` and `p2p.size` to `memPoolSize`, and
with the loaded value for every key other than the nine keys `moniker`, `proxy_app`,
`p2p.laddr`, `p2p.persistent_peers`, `p2p.cache_size`, `p2p.size`, `p2p.pex`,
`instrumentation.prometheus_listen_addr` and `rpc.laddr`; `mempool.size` and
`mempool.cache_size` are among the keys that keep their value. -/
theorem written_config_frame (c : Cast) (env : Env) (app : App) (name : String)
    (paths : List String) (s : Settings) (h0 : app.nodeConfigs = [])
    (hw : Event.writeConfig name paths s ∈ (App.readTestnetConfigs c env app).2.2) :
    ∃ i file, i < app.nodes.length ∧
      env.readInConfig "config" ["./basenet/node" ++ itoa (Int.ofNat i) ++ "/config/"]
        = Except.ok file ∧
      paths = ["./basenet/node" ++ itoa (Int.ofNat i) ++ "/config/"] ∧
      s.lookup "p2p.cache_size" = some (Value.int app.txCacheSize) ∧
      s.lookup "p2p.size" = some (Value.int app.memPoolSize) ∧
      (∀ key, key ∉ ["moniker", "proxy_app", "p2p.laddr", "p2p.persistent_peers",
          "p2p.cache_size", "p2p.size", "p2p.pex", "instrumentation.prometheus_listen_addr",
          "rpc.laddr"] → s.lookup key = file.lookup key) ∧
      s.lookup "mempool.size" = file.lookup "mempool.size" ∧
      s.lookup "mempool.cache_size" = file.lookup "mempool.cache_size" := by
  obtain ⟨i, file, -, hi, hr, hn, hp, hs⟩ :=
    writeConfig_mem_readTestnetConfigs c env app name paths s h0 hw
  simp only [App.nodeConfigPath] at hr hp
  refine ⟨i, file, ?_, ?_, ?_, ?_⟩
  · omega
  · exact hr
  · exact hp
  rw [hs]
  refine ⟨?_, ?_, ?_, ?_, ?_⟩
  · simp only [patchedNodeViper_lookup, String.reduceEq, if_false, if_true]
  · simp only [patchedNodeViper_lookup, String.reduceEq, if_false, if_true]
  · intro key hk
    simp only [List.mem_cons, List.mem_singleton, List.not_mem_nil, or_false, not_or] at hk
    obtain ⟨k1, k2, k3, k4, k5, k6, k7, k8, k9⟩ := hk
    rw [patchedNodeViper_lookup]
    simp only [k1, k2, k3, k4, k5, k6, k7, k8, k9, if_false]
  · simp only [patchedNodeViper_lookup, String.reduceEq, if_false, if_true]
  · simp only [patchedNodeViper_lookup, String.reduceEq, if_false, if_true]

/-- The setting `p2pPort` in the world `twoNodeEnv`, whose settings file has 30000 for the
key. -/
theorem Run_settings_follow_file_witness :
    twoNodeEnv.readInConfig "net" ["."] =
        Except.ok [("nodes", Value.strs ["10.0.0.1", "10.0.0.2"]), ("p2p-port", Value.int 30000)] ∧
      (App.Run zeroCast twoNodeEnv New).1.p2pPort = 30000 :=
  ⟨rfl, (Run_settings_follow_file zeroCast twoNodeEnv New
    [("nodes", Value.strs ["10.0.0.1", "10.0.0.2"]), ("p2p-port", Value.int 30000)]
    rfl).2.2.2.1.2.1 30000 (by decide) (by decide) rfl⟩

/-- The accesses in the world `missingNodeEnv`: node 0 is read and written, node 1 is read. -/
theorem readTestnetConfigs_stops_at_failure_witness :
    twoNodeApp.nodeConfigs = [] ∧ 1 < twoNodeApp.nodes.length ∧
      missingNodeEnv.readInConfig "config" [App.nodeConfigPath 1] = Except.error "Not Found" ∧
      (App.readTestnetConfigs zeroCast missingNodeEnv twoNodeApp).2.2.filterMap Event.access =
        ((List.range 1).map (fun j =>
          [Access.read [App.nodeConfigPath j], Access.write [App.nodeConfigPath j]])).flatten
          ++ [Access.read [App.nodeConfigPath 1]] :=
  ⟨rfl, by decide, rfl,
    (readTestnetConfigs_stops_at_failure zeroCast missingNodeEnv twoNodeApp
      (fun _ => generatedConfig) 1 "Not Found" rfl (by decide)
      (fun j hj => by
        have hj0 : j = 0 := by omega
        subst hj0
        rfl)
      rfl).2.2.1⟩

/-- The accesses in the world `twoNodeEnv`, where both configs load. -/
theorem node_count_is_directory_count_witness :
    twoNodeApp.nodeConfigs = [] ∧
      (App.readTestnetConfigs zeroCast twoNodeEnv twoNodeApp).1 = none ∧
      (App.readTestnetConfigs zeroCast twoNodeEnv twoNodeApp).2.2.filterMap Event.access =
        ((List.range twoNodeApp.nodes.length).map (fun i =>
          [Access.read ["./basenet/node" ++ itoa (Int.ofNat i) ++ "/config/"],
            Access.write ["./basenet/node" ++ itoa (Int.ofNat i) ++ "/config/"]])).flatten :=
  ⟨rfl, by decide,
    (node_count_is_directory_count zeroCast twoNodeEnv twoNodeApp rfl (by decide)).2.1⟩

/-- The config written for node 0 in the world `twoNodeEnv`. -/
theorem written_config_values_witness :
    Event.writeConfig "config" ["./basenet/node0/config/"] node0Written
        ∈ (App.readTestnetConfigs zeroCast twoNodeEnv twoNodeApp).2.2 ∧
      ∃ i, i < twoNodeApp.nodes.length ∧
        node0Written.lookup "moniker" = some (Value.str ("node" ++ itoa (Int.ofNat i))) ∧
        node0Written.lookup "p2p.laddr"
          = some (Value.str ("tcp://0.0.0.0:" ++ itoa twoNodeApp.p2pPort)) :=
  ⟨by decide,
    match written_config_values zeroCast twoNodeEnv twoNodeApp "config"
      ["./basenet/node0/config/"] node0Written rfl (by decide) with
    | ⟨i, _, hi, _, _, _, hm, _, hl, _⟩ => ⟨i, hi, hm, hl⟩⟩

/-- The sizes in the config written for node 0 in the world `twoNodeEnv`. -/
theorem written_config_frame_witness :
    Event.writeConfig "config" ["./basenet/node0/config/"] node0Written
        ∈ (App.readTestnetConfigs zeroCast twoNodeEnv twoNodeApp).2.2 ∧
      node0Written.lookup "p2p.cache_size" = some (Value.int twoNodeApp.txCacheSize) ∧
      node0Written.lookup "p2p.size" = some (Value.int twoNodeApp.memPoolSize) :=
  ⟨by decide,
    match written_config_frame zeroCast twoNodeEnv twoNodeApp "config"
      ["./basenet/node0/config/"] node0Written rfl (by decide) with
    | ⟨_, _, _, _, _, hc, hs, _⟩ => ⟨hc, hs⟩⟩

/-! ## The substitution loop -/

theorem replaceFirst_cons (c : Char) (s old new : List Char) :
    replaceFirst (c :: s) old new =
      if old.isPrefixOf (c :: s) then new ++ (c :: s).drop old.length
      else c :: replaceFirst s old new := rfl

theorem replaceFirst_at (old new : List Char) :
    ∀ (a b : List Char), (∀ a1 a2, a = a1 ++ a2 → a2 ≠ [] → ¬ old <+: a2 ++ old ++ b) →
      replaceFirst (a ++ old ++ b) old new = a ++ new ++ b := by
  intro a
  induction a with
  | nil =>
    intro b _
    cases old with
    | nil =>
      cases b with
      | nil => simp [replaceFirst]
      | cons c b => simp [replaceFirst]
    | cons x old =>
      have hp : (x :: old).isPrefixOf (x :: (old ++ b)) = true := by
        rw [List.isPrefixOf_iff_prefix]; exact List.prefix_append _ _
      simp only [List.nil_append, List.cons_append, replaceFirst_cons, hp, if_true]
      simp
  | cons c a ih =>
    intro b h
    have hnp : ¬ old <+: (c :: a) ++ old ++ b := h [] (c :: a) rfl (by simp)
    have hnp2 : old.isPrefixOf (c :: (a ++ old ++ b)) = false := by
      rw [Bool.eq_false_iff, Ne, List.isPrefixOf_iff_prefix]
      simpa using hnp
    simp only [List.cons_append, replaceFirst_cons, hnp2]
    rw [ih b (fun a1 a2 h1 h2 => h (c :: a1) a2 (by simp [h1]) h2)]
    simp

theorem replaceFirst_of_not_infix (old new : List Char) :
    ∀ (s : List Char), ¬ old <:+: s → replaceFirst s old new = s := by
  intro s
  induction s with
  | nil =>
    intro h
    have : old ≠ [] := fun h0 => h (h0 ▸ List.infix_refl _)
    simp [replaceFirst, this]
  | cons c s ih =>
    intro h
    rw [List.infix_cons_iff, not_or] at h
    have hnp2 : old.isPrefixOf (c :: s) = false := by
      rw [Bool.eq_false_iff, Ne, List.isPrefixOf_iff_prefix]
      exact h.1
    simp [replaceFirst_cons, hnp2, ih h.2]

theorem exists_first_occurrence (old : List Char) :
    ∀ (s : List Char), old <:+: s →
      ∃ a b, s = a ++ old ++ b ∧ ∀ a1 a2, a = a1 ++ a2 → a2 ≠ [] → ¬ old <+: a2 ++ old ++ b := by
  intro s
  induction s with
  | nil =>
    intro h
    have h0 : old = [] := List.infix_nil.1 h
    subst h0
    refine ⟨[], [], rfl, ?_⟩
    intro a1 a2 h1 h2
    simp at h1
    exact absurd h1.2 h2
  | cons c s ih =>
    intro h
    by_cases hp : old <+: c :: s
    · obtain ⟨b, hb⟩ := hp
      refine ⟨[], b, by simp [hb], ?_⟩
      intro a1 a2 h1 h2
      simp at h1
      exact absurd h1.2 h2
    · have h2 : old <:+: s := by
        rcases List.infix_cons_iff.1 h with h3 | h3
        · exact absurd h3 hp
        · exact h3
      obtain ⟨a, b, hab, hfirst⟩ := ih h2
      refine ⟨c :: a, b, by simp [hab], ?_⟩
      intro a1 a2 h1 hne
      cases a1 with
      | nil =>
        simp only [List.nil_append] at h1
        subst h1
        rw [hab] at hp
        simpa using hp
      | cons x a1 =>
        simp only [List.cons_append, List.cons.injEq] at h1
        exact hfirst a1 a2 h1.2 hne

theorem replaceFirst_spec (s old new : List Char) :
    FirstReplaced s old new (replaceFirst s old new) := by
  by_cases h : old <:+: s
  · obtain ⟨a, b, hab, hfirst⟩ := exists_first_occurrence old s h
    right
    exact ⟨a, b, hab, by rw [hab, replaceFirst_at old new a b hfirst], hfirst⟩
  · left
    exact ⟨h, replaceFirst_of_not_infix old new s h⟩

theorem replaceFirst_self (s old : List Char) : replaceFirst s old old = s := by
  rcases replaceFirst_spec s old old with ⟨_, h⟩ | ⟨a, b, h1, h2, _⟩
  · exact h
  · rw [h2, h1]

theorem Replace1_data (s old new : String) :
    (strings.Replace1 s old new).data = replaceFirst s.data old.data new.data := by
  unfold strings.Replace1
  split
  · rename_i h
    rw [h, replaceFirst_self]
  · rfl

theorem substituteFrom_append (p2pPort : Int) (l1 l2 : List String) :
    ∀ (j : Nat) (peers : String),
      App.substituteFrom p2pPort j (l1 ++ l2) peers =
        App.substituteFrom p2pPort (j + l1.length) l2 (App.substituteFrom p2pPort j l1 peers) := by
  induction l1 with
  | nil => intro j peers; simp [App.substituteFrom]
  | cons a l1 ih =>
    intro j peers
    show App.substituteFrom p2pPort (j + 1) (l1 ++ l2) _ = _
    rw [ih, List.length_cons, show j + 1 + l1.length = j + (l1.length + 1) by omega]
    rfl

/-- C3 (as stated, refuted): the loop replaces the first occurrence of a pattern only, and it
looks at the text it has put in. With one node `10.0.0.1`, the second `192.168.0.1:26656`
stays; with the nodes `192.168.0.2` and `10.0.0.2` and the port 26656, the address put in for
node 0 is taken for the address of node 1 and replaced again, and the entry of node 1 stays. In
both cases the result is not the string with every occurrence replaced once. -/
theorem substitutePeers_not_every_occurrence :
    App.substitutePeers "a@192.168.0.1:26656,b@192.168.0.1:26656" ["10.0.0.1"] 30000
        ≠ replaceEveryOccurrence "a@192.168.0.1:26656,b@192.168.0.1:26656" ["10.0.0.1"] 30000 ∧
      App.substitutePeers "a@192.168.0.1:26656,b@192.168.0.1:26656" ["10.0.0.1"] 30000
        = "a@10.0.0.1:30000,b@192.168.0.1:26656" ∧
      replaceEveryOccurrence "a@192.168.0.1:26656,b@192.168.0.1:26656" ["10.0.0.1"] 30000
        = "a@10.0.0.1:30000,b@10.0.0.1:30000" ∧
      App.substitutePeers "a@192.168.0.1:26656,b@192.168.0.2:26656"
          ["192.168.0.2", "10.0.0.2"] 26656
        ≠ replaceEveryOccurrence "a@192.168.0.1:26656,b@192.168.0.2:26656"
          ["192.168.0.2", "10.0.0.2"] 26656 ∧
      App.substitutePeers "a@192.168.0.1:26656,b@192.168.0.2:26656"
          ["192.168.0.2", "10.0.0.2"] 26656
        = "a@10.0.0.2:26656,b@192.168.0.2:26656" ∧
      replaceEveryOccurrence "a@192.168.0.1:26656,b@192.168.0.2:26656"
          ["192.168.0.2", "10.0.0.2"] 26656
        = "a@192.168.0.2:26656,b@10.0.0.2:26656" := by
  refine ⟨by decide, by decide, by decide, by decide, by decide, by decide⟩

/-- C3 (amended): round `j` of the substitution loop replaces the first occurrence of
`192.168.0.<j+1>:26656` in the string as the rounds before have left it by
`<nodes[j]>:<p2pPort>`, and changes nothing when there is none; the loop is the rounds
`0, .., len(nodes)-1` in this order, from the string it is given. -/
theorem substitutePeers_rounds (peers : String) (nodes : List String) (p2pPort : Int) :
    peersAfter peers nodes p2pPort 0 = peers ∧
    peersAfter peers nodes p2pPort nodes.length = App.substitutePeers peers nodes p2pPort ∧
    ∀ (j : Nat) (hj : j < nodes.length),
      FirstReplaced (peersAfter peers nodes p2pPort j).data
        ("192.168.0." ++ itoa (Int.ofNat (j + 1)) ++ ":26656").data
        (nodes[j] ++ ":" ++ itoa p2pPort).data
        (peersAfter peers nodes p2pPort (j + 1)).data := by
  refine ⟨rfl, by simp [peersAfter], ?_⟩
  intro j hj
  have ht : nodes.take (j + 1) = nodes.take j ++ [nodes[j]] := by
    rw [List.take_succ, List.getElem?_eq_getElem hj]
    rfl
  have hl : (nodes.take j).length = j := by
    rw [List.length_take]; omega
  have hstep : peersAfter peers nodes p2pPort (j + 1) =
      strings.Replace1 (peersAfter peers nodes p2pPort j) (App.peerPattern j)
        (App.peerAddress nodes[j] p2pPort) := by
    simp only [peersAfter, App.substitutePeers, ht, substituteFrom_append, hl, Nat.zero_add,
      App.substituteFrom]
  rw [hstep, Replace1_data]
  exact replaceFirst_spec _ _ _

/-- The first round of the loop on two entries with the same address and one node. -/
theorem substitutePeers_rounds_witness :
    FirstReplaced
      (peersAfter "a@192.168.0.1:26656,b@192.168.0.1:26656" ["10.0.0.1"] 30000 0).data
      ("192.168.0." ++ itoa (Int.ofNat (0 + 1)) ++ ":26656").data
      ("10.0.0.1" ++ ":" ++ itoa 30000).data
      (peersAfter "a@192.168.0.1:26656,b@192.168.0.1:26656" ["10.0.0.1"] 30000 (0 + 1)).data :=
  (substitutePeers_rounds "a@192.168.0.1:26656,b@192.168.0.1:26656" ["10.0.0.1"] 30000).2.2 0
    (by decide)

/-! ## The substitution loop on the peers the generator writes -/

theorem noStart_nil : NoStart [] := by
  intro a1 a2 y h hne
  simp at h
  exact absurd h.2 hne

theorem not_prefix_of_sep (x y : List Char) (sep : Char) (hx : ¬ ipPrefix <:+: x)
    (hsep : sep ∉ ipPrefix) :
    ∀ x1 x2, x = x1 ++ x2 → ¬ ipPrefix <+: x2 ++ sep :: y := by
  intro x1 x2 h hp
  by_cases hl : ipPrefix.length ≤ x2.length
  · have h1 : ipPrefix <+: x2 := by
      have h2 : x2 <+: x2 ++ sep :: y := List.prefix_append _ _
      exact List.prefix_of_prefix_length_le hp h2 hl
    apply hx
    obtain ⟨t, ht⟩ := h1
    exact ⟨x1, t, by rw [h, ← ht, List.append_assoc]⟩
  · have h2 : x2 ++ [sep] <+: ipPrefix := by
      have h3 : x2 ++ [sep] <+: x2 ++ sep :: y := by
        rw [show x2 ++ sep :: y = (x2 ++ [sep]) ++ y by simp]
        exact List.prefix_append _ _
      exact List.prefix_of_prefix_length_le h3 hp (by simp; omega)
    apply hsep
    exact h2.subset (by simp)

theorem noStart_append_sep (a x : List Char) (sep : Char) (ha : NoStart a)
    (hx : ¬ ipPrefix <:+: x) (hsep : sep ∉ ipPrefix) : NoStart (a ++ x ++ [sep]) := by
  intro a1 a2 y h hne
  rw [List.append_assoc] at h
  rcases List.append_eq_append_iff.1 h with ⟨p, h1, h2⟩ | ⟨p, h1, h2⟩
  · -- `a1 = a ++ p`, `x ++ [sep] = p ++ a2`
    rcases List.append_eq_append_iff.1 h2 with ⟨q, h3, h4⟩ | ⟨q, h3, h4⟩
    · -- `p = x ++ q`, `[sep] = q ++ a2`
      have ha2 : a2 = [sep] := by
        cases q with
        | nil => simpa using h4.symm
        | cons c q =>
          simp only [List.cons_append, List.cons.injEq] at h4
          have h5 : a2 = [] := (List.append_eq_nil.1 h4.2.symm).2
          exact absurd h5 hne
      rw [ha2]
      exact not_prefix_of_sep [] y sep (by
        intro h5
        have := List.infix_nil.1 h5
        simp [ipPrefix] at this) hsep [] [] rfl
    · -- `x = p ++ q`, `a2 = q ++ [sep]`
      rw [h4, List.append_assoc]
      exact not_prefix_of_sep x y sep hx hsep p q h3
  · -- `a = a1 ++ p`, `a2 = p ++ (x ++ [sep])`
    by_cases hp : p = []
    · subst hp
      simp only [List.nil_append] at h2
      rw [h2, List.append_assoc]
      exact not_prefix_of_sep x y sep hx hsep [] x rfl
    · rw [h2, List.append_assoc]
      exact ha a1 p _ h1 hp

theorem digitChar_ne_dot (m : Nat) (h : m < 10) : Nat.digitChar m ≠ '.' := by
  interval_cases m <;> decide

theorem toDigitsCore_no_dot (fuel : Nat) :
    ∀ (n : Nat) (ds : List Char), '.' ∉ ds → '.' ∉ Nat.toDigitsCore 10 fuel n ds := by
  induction fuel with
  | zero => intro n ds h; simpa [Nat.toDigitsCore] using h
  | succ fuel ih =>
    intro n ds h
    have hd : '.' ∉ Nat.digitChar (n % 10) :: ds := by
      simp only [List.mem_cons, not_or]
      exact ⟨fun h2 => digitChar_ne_dot _ (Nat.mod_lt _ (by decide)) h2.symm, h⟩
    simp only [Nat.toDigitsCore]
    split
    · exact hd
    · exact ih _ _ hd

theorem itoa_no_dot (n : Int) : '.' ∉ (itoa n).data := by
  cases n with
  | ofNat m =>
    show '.' ∉ Nat.toDigitsCore 10 (m + 1) m []
    exact toDigitsCore_no_dot _ _ _ (by simp)
  | negSucc m =>
    show '.' ∉ ("-" ++ Nat.repr (m + 1)).data
    rw [String.data_append]
    simp only [List.mem_append, not_or]
    refine ⟨by decide, ?_⟩
    show '.' ∉ Nat.toDigitsCore 10 (m + 1 + 1) (m + 1) []
    exact toDigitsCore_no_dot _ _ _ (by simp)

theorem not_infix_of_no_dot (x : List Char) (h : '.' ∉ x) : ¬ ipPrefix <:+: x := by
  intro hi
  exact h (hi.subset (by decide))

theorem peerPattern_data (j : Nat) :
    (App.peerPattern j).data = ipPrefix ++ ((itoa (Int.ofNat (j + 1))).data ++ ":26656".data) := by
  simp only [App.peerPattern, String.data_append, ipPrefix, List.append_assoc]

theorem generatedEntry_data (id : String) (j : Nat) :
    (id ++ "@192.168.0." ++ itoa (Int.ofNat (j + 1)) ++ ":26656").data =
      (id.data ++ ['@']) ++ (App.peerPattern j).data := by
  simp only [App.peerPattern, String.data_append, List.append_assoc]
  rfl

theorem substitutedEntry_data (id node : String) (p2pPort : Int) :
    (id ++ "@" ++ node ++ ":" ++ itoa p2pPort).data =
      (id.data ++ ['@']) ++ (App.peerAddress node p2pPort).data := by
  simp only [App.peerAddress, String.data_append, List.append_assoc]

theorem replace_generated (a b : List Char) (j : Nat) (new : String) (ha : NoStart a) :
    strings.Replace1 ⟨a ++ (App.peerPattern j).data ++ b⟩ (App.peerPattern j) new =
      ⟨a ++ new.data ++ b⟩ := by
  apply String.ext
  rw [Replace1_data]
  apply replaceFirst_at
  intro a1 a2 h hne hp
  apply ha a1 a2 ((App.peerPattern j).data ++ b) h hne
  obtain ⟨t, ht⟩ := hp
  refine ⟨((itoa (Int.ofNat (j + 1))).data ++ ":26656".data) ++ t, ?_⟩
  rw [← List.append_assoc, ← peerPattern_data, ht, List.append_assoc]

theorem noStart_entry (pre : List Char) (id node : String) (p2pPort : Int) (hpre : NoStart pre)
    (hid : '.' ∉ id.data) (hnode : ¬ ipPrefix <:+: node.data) :
    NoStart (pre ++ (id.data ++ ['@'])) ∧
      NoStart (pre ++ (id.data ++ ['@']) ++ (App.peerAddress node p2pPort).data ++ [',']) := by
  have h1 : NoStart (pre ++ id.data ++ ['@']) :=
    noStart_append_sep pre id.data '@' hpre (not_infix_of_no_dot _ hid) (by decide)
  have h2 : NoStart (pre ++ id.data ++ ['@'] ++ node.data ++ [':']) :=
    noStart_append_sep _ node.data ':' h1 hnode (by decide)
  have h3 : NoStart (pre ++ id.data ++ ['@'] ++ node.data ++ [':'] ++ (itoa p2pPort).data
      ++ [',']) :=
    noStart_append_sep _ (itoa p2pPort).data ',' h2 (not_infix_of_no_dot _ (itoa_no_dot _))
      (by decide)
  refine ⟨by simpa only [List.append_assoc] using h1, ?_⟩
  have hd : (App.peerAddress node p2pPort).data = node.data ++ [':'] ++ (itoa p2pPort).data := by
    simp only [App.peerAddress, String.data_append]
  rw [hd]
  simpa only [List.append_assoc] using h3

theorem substituteFrom_generated (p2pPort : Int) :
    ∀ (ids nodes : List String) (j : Nat) (pre : List Char), ids.length = nodes.length →
      NoStart pre → (∀ id ∈ ids, '.' ∉ id.data) → (∀ node ∈ nodes, ¬ ipPrefix <:+: node.data) →
      App.substituteFrom p2pPort j nodes ⟨pre ++ (joinComma (generatedEntries j ids)).data⟩ =
        ⟨pre ++ (joinComma (substitutedEntries p2pPort ids nodes)).data⟩ := by
  intro ids
  induction ids with
  | nil =>
    intro nodes j pre hlen _ _ _
    have hn : nodes = [] := List.eq_nil_of_length_eq_zero hlen.symm
    subst hn
    rfl
  | cons id ids ih =>
    intro nodes j pre hlen hpre hid hnode
    cases nodes with
    | nil => simp at hlen
    | cons node nodes =>
      have hlen2 : ids.length = nodes.length := by simpa using hlen
      obtain ⟨hA, hB⟩ := noStart_entry pre id node p2pPort hpre
        (hid id (List.mem_cons_self _ _)) (hnode node (List.mem_cons_self _ _))
      cases ids with
      | nil =>
        have hn : nodes = [] := List.eq_nil_of_length_eq_zero hlen2.symm
        subst hn
        simp only [generatedEntries, substitutedEntries, joinComma, App.substituteFrom,
          generatedEntry_data, substitutedEntry_data]
        have := replace_generated (pre ++ (id.data ++ ['@'])) [] j
          (App.peerAddress node p2pPort) hA
        simp only [List.append_nil, List.append_assoc, List.singleton_append, List.cons_append,
          List.nil_append] at this ⊢
        exact this
      | cons id2 ids =>
        cases nodes with
        | nil => simp at hlen2
        | cons node2 nodes =>
          have ih2 := ih (node2 :: nodes) (j + 1)
            (pre ++ (id.data ++ ['@']) ++ (App.peerAddress node p2pPort).data ++ [','])
            hlen2 hB (fun x hx => hid x (List.mem_cons_of_mem _ hx))
            (fun x hx => hnode x (List.mem_cons_of_mem _ hx))
          have hr := replace_generated (pre ++ (id.data ++ ['@']))
            (',' :: (joinComma (generatedEntries (j + 1) (id2 :: ids))).data) j
            (App.peerAddress node p2pPort) hA
          have hg : (joinComma (generatedEntries j (id :: id2 :: ids))).data =
              (id.data ++ ['@']) ++ (App.peerPattern j).data ++
                ',' :: (joinComma (generatedEntries (j + 1) (id2 :: ids))).data := by
            show ((id ++ "@192.168.0." ++ itoa (Int.ofNat (j + 1)) ++ ":26656") ++ "," ++
              joinComma (generatedEntries (j + 1) (id2 :: ids))).data = _
            rw [String.data_append, String.data_append, generatedEntry_data]
            simp only [List.append_assoc]
            rfl
          have hs : (joinComma (substitutedEntries p2pPort (id :: id2 :: ids)
              (node :: node2 :: nodes))).data =
              (id.data ++ ['@']) ++ (App.peerAddress node p2pPort).data ++
                ',' :: (joinComma (substitutedEntries p2pPort (id2 :: ids)
                  (node2 :: nodes))).data := by
            show ((id ++ "@" ++ node ++ ":" ++ itoa p2pPort) ++ "," ++
              joinComma (substitutedEntries p2pPort (id2 :: ids) (node2 :: nodes))).data = _
            rw [String.data_append, String.data_append, substitutedEntry_data]
            simp only [List.append_assoc]
            rfl
          rw [hg, hs]
          show App.substituteFrom p2pPort (j + 1) (node2 :: nodes)
            (strings.Replace1 _ (App.peerPattern j) (App.peerAddress node p2pPort)) = _
          simp only [List.append_assoc, List.singleton_append, List.cons_append,
            List.nil_append] at hr ih2 ⊢
          rw [hr, ih2]

/-- C9: for the peers the generator writes, the entries `<id_k>@192.168.0.<k>:26656` for
`k = 1..n` joined by ",", with no '.' in an id, for `n` nodes of which no address contains
"192.168.0.", and for every p2p port, the substitution loop returns the entries
`<id_k>@<nodes[k-1]>:<p2pPort>` for `k = 1..n` joined by ",", in the same order. -/
theorem substitutePeers_generated (ids nodes : List String) (p2pPort : Int)
    (hlen : ids.length = nodes.length) (hid : ∀ id ∈ ids, '.' ∉ id.data)
    (hnode : ∀ node ∈ nodes, strings.Contains node "192.168.0." = false) :
    App.substitutePeers (joinComma (generatedEntries 0 ids)) nodes p2pPort =
      joinComma (substitutedEntries p2pPort ids nodes) := by
  have h := substituteFrom_generated p2pPort ids nodes 0 [] hlen noStart_nil hid
    (fun node hn hi => by
      have h1 := hnode node hn
      rw [Bool.eq_false_iff] at h1
      exact h1 ((strings_Contains_iff node "192.168.0.").2 hi))
  simpa only [List.nil_append] using h

/-- The loop on the peers of a network of two. -/
theorem substitutePeers_generated_witness :
    App.substitutePeers "a1@192.168.0.1:26656,b2@192.168.0.2:26656" ["10.0.0.1", "node-b"] 30000
      = "a1@10.0.0.1:30000,b2@node-b:30000" :=
  substitutePeers_generated ["a1", "b2"] ["10.0.0.1", "node-b"] 30000 rfl (by decide) (by decide)

end TmConfigurator
